import Mathlib

/-!
Verification of the meikipop dictionary core
(`src/dictionary/customdict.py`, `src/dictionary/yomichan.py`,
`src/dictionary/structured_content.py`) against its natural-language
specification.

The Python code is shallowly embedded: JSON/Python values become the
inductive `JValue`; Python exceptions become the `Except PyErr` monad
(functions that catch all exceptions become total functions returning
`Option`); Python dicts become insertion-ordered association lists;
file-system and SQLite state become explicit record types holding the
facts the code branches on.  Machine integers do not occur (Python ints
are unbounded), so `Int`/`Nat` are used directly; the SHA-256 hash used
for fallback entry ids is implemented bit-for-bit over `Nat` with
explicit `% 2^32`.
-/

set_option maxHeartbeats 4000000
set_option maxRecDepth 8000
set_option linter.unusedVariables false

/-- Model of a Python/JSON value as it occurs in the dictionary code:
strings, integers, booleans, `None`, lists and (string-keyed) dicts.
Python floats do not occur in the modelled code paths and are omitted. -/
inductive JValue where
  | str (s : String)
  | num (n : Int)
  | bool (b : Bool)
  | null
  | arr (xs : List JValue)
  | obj (kvs : List (String × JValue))

mutual
/-- Structural equality test on `JValue` (Python `==` on JSON data). -/
def JValue.beq : JValue → JValue → Bool
  | .str s, .str t => s == t
  | .num m, .num n => m == n
  | .bool a, .bool c => a == c
  | .null, .null => true
  | .arr xs, .arr ys => JValue.beqL xs ys
  | .obj ps, .obj qs => JValue.beqO ps qs
  | _, _ => false

/-- Elementwise equality of `JValue` lists. -/
def JValue.beqL : List JValue → List JValue → Bool
  | [], [] => true
  | x :: xs, y :: ys => JValue.beq x y && JValue.beqL xs ys
  | _, _ => false

/-- Elementwise equality of key/value lists. -/
def JValue.beqO : List (String × JValue) → List (String × JValue) → Bool
  | [], [] => true
  | (k, v) :: ps, (l, w) :: qs => k == l && JValue.beq v w && JValue.beqO ps qs
  | _, _ => false
end

mutual
theorem JValue.beq_iff_eq : ∀ a b : JValue, JValue.beq a b = true ↔ a = b
  | .str s, .str t => by simp [JValue.beq]
  | .num m, .num n => by simp [JValue.beq]
  | .bool a, .bool c => by simp [JValue.beq]
  | .null, .null => by simp [JValue.beq]
  | .arr xs, .arr ys => by
    simp only [JValue.beq, JValue.beqL_iff_eq xs ys]
    constructor
    · intro h; rw [h]
    · intro h; cases h; rfl
  | .obj ps, .obj qs => by
    simp only [JValue.beq, JValue.beqO_iff_eq ps qs]
    constructor
    · intro h; rw [h]
    · intro h; cases h; rfl
  | .str _, .num _ => by simp [JValue.beq]
  | .str _, .bool _ => by simp [JValue.beq]
  | .str _, .null => by simp [JValue.beq]
  | .str _, .arr _ => by simp [JValue.beq]
  | .str _, .obj _ => by simp [JValue.beq]
  | .num _, .str _ => by simp [JValue.beq]
  | .num _, .bool _ => by simp [JValue.beq]
  | .num _, .null => by simp [JValue.beq]
  | .num _, .arr _ => by simp [JValue.beq]
  | .num _, .obj _ => by simp [JValue.beq]
  | .bool _, .str _ => by simp [JValue.beq]
  | .bool _, .num _ => by simp [JValue.beq]
  | .bool _, .null => by simp [JValue.beq]
  | .bool _, .arr _ => by simp [JValue.beq]
  | .bool _, .obj _ => by simp [JValue.beq]
  | .null, .str _ => by simp [JValue.beq]
  | .null, .num _ => by simp [JValue.beq]
  | .null, .bool _ => by simp [JValue.beq]
  | .null, .arr _ => by simp [JValue.beq]
  | .null, .obj _ => by simp [JValue.beq]
  | .arr _, .str _ => by simp [JValue.beq]
  | .arr _, .num _ => by simp [JValue.beq]
  | .arr _, .bool _ => by simp [JValue.beq]
  | .arr _, .null => by simp [JValue.beq]
  | .arr _, .obj _ => by simp [JValue.beq]
  | .obj _, .str _ => by simp [JValue.beq]
  | .obj _, .num _ => by simp [JValue.beq]
  | .obj _, .bool _ => by simp [JValue.beq]
  | .obj _, .null => by simp [JValue.beq]
  | .obj _, .arr _ => by simp [JValue.beq]

theorem JValue.beqL_iff_eq : ∀ xs ys : List JValue, JValue.beqL xs ys = true ↔ xs = ys
  | [], [] => by simp [JValue.beqL]
  | x :: xs, y :: ys => by
    simp [JValue.beqL, JValue.beq_iff_eq x y, JValue.beqL_iff_eq xs ys]
  | [], _ :: _ => by simp [JValue.beqL]
  | _ :: _, [] => by simp [JValue.beqL]

theorem JValue.beqO_iff_eq : ∀ ps qs : List (String × JValue),
    JValue.beqO ps qs = true ↔ ps = qs
  | [], [] => by simp [JValue.beqO]
  | (k, v) :: ps, (l, w) :: qs => by
    simp [JValue.beqO, JValue.beq_iff_eq v w, JValue.beqO_iff_eq ps qs, and_assoc]
  | [], _ :: _ => by simp [JValue.beqO]
  | _ :: _, [] => by simp [JValue.beqO]
end

instance : DecidableEq JValue := fun a b =>
  decidable_of_iff _ (JValue.beq_iff_eq a b)

theorem JValue.beq_eq_decide (a b : JValue) : JValue.beq a b = decide (a = b) := by
  by_cases h : a = b
  · subst h
    simp [(JValue.beq_iff_eq a a).2 rfl]
  · have hb : JValue.beq a b = false := by
      cases hbeq : JValue.beq a b
      · rfl
      · exact absurd ((JValue.beq_iff_eq a b).1 hbeq) h
    rw [hb, decide_eq_false h]

/-- Python truthiness of a value (`bool(v)`). -/
def truthy : JValue → Bool
  | .str s => s ≠ ""
  | .num n => n ≠ 0
  | .bool b => b
  | .null => false
  | .arr xs => !xs.isEmpty
  | .obj kvs => !kvs.isEmpty

/-- First-match lookup in a key/value list (Python dict lookup; dict keys
are unique, so first match is the match). -/
def lookupJ (k : String) : List (String × JValue) → Option JValue
  | [] => none
  | (k', v) :: rest => if k' = k then some v else lookupJ k rest

theorem lookupJ_sizeOf {k : String} : ∀ (kvs : List (String × JValue)) (v : JValue),
    lookupJ k kvs = some v → sizeOf v < sizeOf kvs
  | [], _, h => by simp [lookupJ] at h
  | (k', w) :: rest, v, h => by
    simp only [lookupJ] at h
    split at h
    · cases h; simp; omega
    · have := lookupJ_sizeOf rest v h
      simp; omega

/-- `dict.get(k, d)` on a dict already matched to its key/value list. -/
def jgetD (kvs : List (String × JValue)) (k : String) (d : JValue) : JValue :=
  (lookupJ k kvs).getD d

/-- Python exception kinds distinguished by the modelled code. -/
inductive PyErr where
  | indexError
  | keyError
  | typeError
  | valueError
  | attrError
deriving DecidableEq

/-- `v.get(k, d)`: dict method lookup; on a non-dict the attribute access
raises `AttributeError`. -/
def pyGet (v : JValue) (k : String) (d : JValue) : Except PyErr JValue :=
  match v with
  | .obj kvs => .ok (jgetD kvs k d)
  | _ => .error .attrError

/-- `v[k]` for a string key: `KeyError` when missing, `TypeError` on
non-dict containers. -/
def pySubscrKey (v : JValue) (k : String) : Except PyErr JValue :=
  match v with
  | .obj kvs =>
    match lookupJ k kvs with
    | some x => .ok x
    | none => .error .keyError
  | _ => .error .typeError

/-- Python iteration `for x in v`: lists yield elements, strings yield
one-character strings, dicts yield their keys, other values raise
`TypeError`. -/
def pyIter : JValue → Except PyErr (List JValue)
  | .arr xs => .ok xs
  | .str s => .ok (s.data.map (fun c => .str (String.singleton c)))
  | .obj kvs => .ok (kvs.map (fun kv => .str kv.1))
  | _ => .error .typeError

/-- Digit run to a number (`none` when empty or non-digit). -/
def digitsToNat (l : List Char) : Option Nat :=
  if !l.isEmpty && l.all (·.isDigit) then
    some (l.foldl (fun a c => a * 10 + (c.toNat - 48)) 0)
  else none

/-- `int(s)` on a string: surrounding whitespace stripped, optional sign,
decimal digits.  (Digit-group underscores accepted by Python are not
modelled; they do not occur in the dictionary data formats.) -/
def parseIntStr (s : String) : Option Int :=
  match (s.trim).data with
  | [] => none
  | '+' :: ds => (digitsToNat ds).map Int.ofNat
  | '-' :: ds => (digitsToNat ds).map (fun n => -(n : Int))
  | ds => (digitsToNat ds).map Int.ofNat

/-- `int(v)`: ints pass through, bools coerce, numeric strings parse
(`ValueError` otherwise), all other types raise `TypeError`. -/
def pyInt : JValue → Except PyErr Int
  | .num n => .ok n
  | .bool b => .ok (if b then 1 else 0)
  | .str s =>
    match parseIntStr s with
    | some n => .ok n
    | none => .error .valueError
  | _ => .error .typeError

/-- `v.split(' ')` — only strings have `.split`. -/
def pySplitSpace : JValue → Except PyErr (List String)
  | .str s => .ok (s.splitOn " ")
  | _ => .error .attrError

/-- Strip all characters in `cs` from both ends of a character list. -/
def stripChars (l : List Char) (cs : List Char) : List Char :=
  ((l.dropWhile (cs.contains ·)).reverse.dropWhile (cs.contains ·)).reverse

/-- `v.strip("&;")` — only strings have `.strip`. -/
def pyStrip (v : JValue) (cs : List Char) : Except PyErr String :=
  match v with
  | .str s => .ok (String.mk (stripChars s.data cs))
  | _ => .error .attrError

/-- A single-quote character, kept out of string literals. -/
def squote : String := String.singleton (Char.ofNat 39)

mutual
/-- Python `repr` of a JSON-like value (string escapes inside `repr` of a
string are not modelled; no claim depends on them). -/
def pyRepr : JValue → String
  | .str s => squote ++ s ++ squote
  | .num n => toString n
  | .bool b => if b then "True" else "False"
  | .null => "None"
  | .arr xs => "[" ++ pyReprList xs ++ "]"
  | .obj kvs => "\x7b" ++ pyReprObj kvs ++ "\x7d"

/-- Comma-separated `repr`s of list elements. -/
def pyReprList : List JValue → String
  | [] => ""
  | [x] => pyRepr x
  | x :: y :: rest => pyRepr x ++ ", " ++ pyReprList (y :: rest)

/-- Comma-separated `repr`s of dict items. -/
def pyReprObj : List (String × JValue) → String
  | [] => ""
  | [(k, v)] => squote ++ k ++ squote ++ ": " ++ pyRepr v
  | (k, v) :: p :: rest =>
    squote ++ k ++ squote ++ ": " ++ pyRepr v ++ ", " ++ pyReprObj (p :: rest)
end

/-- Python `str(v)`: identity on strings, `repr`-style elsewhere. -/
def pyStr : JValue → String
  | .str s => s
  | v => pyRepr v

/-- Python `x or y` (value-returning disjunction). -/
def pyOr (a b : JValue) : JValue := if truthy a then a else b

/-- Python `str.replace(pat, rep)`: scan left to right, replacing every
(non-overlapping) occurrence of `pat` by `rep`.  (Python's special case
for an empty pattern never occurs in the modelled code.) -/
def pyReplace : List Char → List Char → List Char → List Char
  | [], _, _ => []
  | c :: cs, pat, rep =>
    if h : !pat.isEmpty && pat.isPrefixOf (c :: cs) then
      rep ++ pyReplace ((c :: cs).drop pat.length) pat rep
    else
      c :: pyReplace cs pat rep
termination_by l _ _ => l.length
decreasing_by
  all_goals simp_wf
  all_goals try omega
  all_goals rcases pat with _ | ⟨p, ps⟩
  · simp at h
  · simp only [List.length_drop, List.length_cons]
    omega

/-- `str.replace` on `String`s. -/
def pyReplaceS (s pat rep : String) : String :=
  String.mk (pyReplace s.data pat.data rep.data)

/-- `escape_html` from `structured_content.py`: chain of three
`str.replace` calls. -/
def escape_html (s : String) : String :=
  pyReplaceS (pyReplaceS (pyReplaceS s "&" "&amp;") "<" "&lt;") ">" "&gt;"

/-! ## Structured-content renderer (`structured_content.py`) -/

/-- Tag dispatch of `render_node` (the `if tag == ...` chain; the `data`
inspection in the wrapper branch is a `pass` in the source and has no
effect).  A non-string tag matches no branch and falls through to the
inner markup. -/
def renderTag (tag : JValue) (inner : String) : String :=
  match tag with
  | .str t =>
    if t = "br" then "<br>"
    else if ["span", "div", "p", "b", "i", "u", "s", "sub", "sup",
             "strong", "em", "small", "big"].contains t then
      "<" ++ t ++ " " ++ ">" ++ inner ++ "</" ++ t ++ ">"
    else if t = "ul" then
      "<ul style=" ++ squote ++ "margin: 0; padding-left: 20px;" ++ squote ++ ">"
        ++ inner ++ "</ul>"
    else if t = "ol" then
      "<ol style=" ++ squote ++ "margin: 0; padding-left: 20px;" ++ squote ++ ">"
        ++ inner ++ "</ol>"
    else if t = "li" then "<li>" ++ inner ++ "</li>"
    else if t = "table" then
      "<table border=" ++ squote ++ "1" ++ squote ++ " cellspacing=" ++ squote
        ++ "0" ++ squote ++ " cellpadding=" ++ squote ++ "2" ++ squote ++ ">"
        ++ inner ++ "</table>"
    else if ["tr", "td", "th", "thead", "tbody"].contains t then
      "<" ++ t ++ ">" ++ inner ++ "</" ++ t ++ ">"
    else if t = "ruby" then inner
    else if t = "rt" then ""
    else if t = "img" then "[Image]"
    else inner
  | _ => inner

mutual
/-- `render_node` from `structured_content.py`: strings are HTML-escaped,
lists concatenate their children's renders, dicts render their `content`
(empty when absent or falsy) and wrap it according to `tag` (returned
bare when `tag` is absent or falsy); every other value renders as `""`. -/
def render_node : JValue → String
  | .str s => escape_html s
  | .arr xs => renderNodeList xs
  | .obj kvs =>
    let inner :=
      match hc : lookupJ "content" kvs with
      | some c => if truthy c then render_node c else ""
      | none => ""
    let tag := jgetD kvs "tag" .null
    if ¬ truthy tag then inner else renderTag tag inner
  | _ => ""
termination_by n => sizeOf n
decreasing_by
  all_goals simp_wf
  all_goals try omega
  all_goals (have h5 := lookupJ_sizeOf _ _ hc; omega)

/-- `"".join(render_node(child) for child in node)`. -/
def renderNodeList : List JValue → String
  | [] => ""
  | x :: xs => render_node x ++ renderNodeList xs
termination_by xs => sizeOf xs
decreasing_by
  all_goals simp_wf
  all_goals omega
end

/-! ## Characterisation of the escaping chains -/

/-- Map each character to a replacement and concatenate. -/
def escJoinMap (f : Char → List Char) (l : List Char) : List Char :=
  (l.map f).join

/-- The intended single-pass escape of the three reserved characters. -/
def escChar (c : Char) : List Char :=
  if c = '&' then "&amp;".data
  else if c = '<' then "&lt;".data
  else if c = '>' then "&gt;".data
  else [c]

/-- The single-pass escape used by the packaged-lexicon renderer on plain
text: the three reserved characters, plus newline to `<br>`. -/
def escChar4 (c : Char) : List Char :=
  if c = '&' then "&amp;".data
  else if c = '<' then "&lt;".data
  else if c = '>' then "&gt;".data
  else if c = '\n' then "<br>".data
  else [c]

theorem pyReplace_single (c : Char) (rep : List Char) :
    ∀ l, pyReplace l [c] rep = escJoinMap (fun x => if x = c then rep else [x]) l
  | [] => by simp [pyReplace, escJoinMap]
  | x :: xs => by
    rw [pyReplace]
    by_cases hx : c = x
    · subst hx
      simp [List.isPrefixOf, escJoinMap, pyReplace_single c rep xs]
    · have : (c == x) = false := by simp [hx]
      simp [List.isPrefixOf, this, escJoinMap, pyReplace_single c rep xs,
        Ne.symm hx]

theorem escJoinMap_append (f : Char → List Char) (a b : List Char) :
    escJoinMap f (a ++ b) = escJoinMap f a ++ escJoinMap f b := by
  simp [escJoinMap]

theorem escJoinMap_escJoinMap (f g : Char → List Char) :
    ∀ l, escJoinMap f (escJoinMap g l) = escJoinMap (fun c => escJoinMap f (g c)) l
  | [] => by simp [escJoinMap]
  | x :: xs => by
    have h1 : escJoinMap g (x :: xs) = g x ++ escJoinMap g xs := by
      simp [escJoinMap]
    rw [h1, escJoinMap_append, escJoinMap_escJoinMap f g xs]
    simp [escJoinMap]

theorem escChar_comp (c : Char) :
    escJoinMap
      (fun x =>
        escJoinMap (fun y => if y = '>' then "&gt;".data else [y])
          (if x = '<' then "&lt;".data else [x]))
      (if c = '&' then "&amp;".data else [c]) = escChar c := by
  by_cases h1 : c = '&'
  · subst h1; decide
  · rw [if_neg h1]
    by_cases h2 : c = '<'
    · subst h2; decide
    · by_cases h3 : c = '>'
      · subst h3; decide
      · simp [escJoinMap, escChar, h1, h2, h3]

/-- `escape_html` is exactly the single-pass escape of `&`, `<`, `>`:
every other character passes through unchanged. -/
theorem escape_html_chars (s : String) :
    (escape_html s).data = escJoinMap escChar s.data := by
  show pyReplace
      (pyReplace (pyReplace s.data "&".data "&amp;".data) "<".data "&lt;".data)
      ">".data "&gt;".data = _
  rw [show ("&".data : List Char) = ['&'] from rfl,
    show ("<".data : List Char) = ['<'] from rfl,
    show (">".data : List Char) = ['>'] from rfl]
  rw [pyReplace_single, pyReplace_single, pyReplace_single]
  rw [escJoinMap_escJoinMap, escJoinMap_escJoinMap]
  congr 1
  funext c
  exact escChar_comp c

/-! ## SHA-256 over byte lists (`hashlib.sha256`), used for fallback ids -/

/-- 2^32. -/
def M32 : Nat := 4294967296

/-- Addition modulo 2^32. -/
def add32 (a b : Nat) : Nat := (a + b) % M32

/-- Right rotation of a 32-bit word. -/
def rotr32 (x n : Nat) : Nat := x / 2 ^ n + x % 2 ^ n * 2 ^ (32 - n)

/-- Logical right shift. -/
def shr32 (x n : Nat) : Nat := x / 2 ^ n

/-- SHA-256 choice function. -/
def shaCh (x y z : Nat) : Nat :=
  Nat.xor (Nat.land x y) (Nat.land (Nat.xor x (M32 - 1)) z)

/-- SHA-256 majority function. -/
def shaMaj (x y z : Nat) : Nat :=
  Nat.xor (Nat.xor (Nat.land x y) (Nat.land x z)) (Nat.land y z)

/-- Big Σ0. -/
def shaS0 (x : Nat) : Nat := Nat.xor (Nat.xor (rotr32 x 2) (rotr32 x 13)) (rotr32 x 22)

/-- Big Σ1. -/
def shaS1 (x : Nat) : Nat := Nat.xor (Nat.xor (rotr32 x 6) (rotr32 x 11)) (rotr32 x 25)

/-- Small σ0. -/
def shaLs0 (x : Nat) : Nat := Nat.xor (Nat.xor (rotr32 x 7) (rotr32 x 18)) (shr32 x 3)

/-- Small σ1. -/
def shaLs1 (x : Nat) : Nat := Nat.xor (Nat.xor (rotr32 x 17) (rotr32 x 19)) (shr32 x 10)

/-- SHA-256 round constants. -/
def shaK : List Nat :=
  [1116352408, 1899447441, 3049323471, 3921009573, 961987163,
   1508970993, 2453635748, 2870763221, 3624381080, 310598401,
   607225278, 1426881987, 1925078388, 2162078206, 2614888103,
   3248222580, 3835390401, 4022224774, 264347078, 604807628,
   770255983, 1249150122, 1555081692, 1996064986, 2554220882,
   2821834349, 2952996808, 3210313671, 3336571891, 3584528711,
   113926993, 338241895, 666307205, 773529912, 1294757372,
   1396182291, 1695183700, 1986661051, 2177026350, 2456956037,
   2730485921, 2820302411, 3259730800, 3345764771, 3516065817,
   3600352804, 4094571909, 275423344, 430227734, 506948616,
   659060556, 883997877, 958139571, 1322822218, 1537002063,
   1747873779, 1955562222, 2024104815, 2227730452, 2361852424,
   2428436474, 2756734187, 3204031479, 3329325298]

/-- SHA-256 initial hash state. -/
def shaH0 : List Nat :=
  [1779033703, 3144134277, 1013904242, 2773480762,
   1359893119, 2600822924, 528734635, 1541459225]

/-- Big-endian bytes of a number, fixed width. -/
def bytesBE : Nat → Nat → List Nat
  | 0, _ => []
  | c + 1, n => bytesBE c (n / 256) ++ [n % 256]

/-- Big-endian 32-bit word from bytes. -/
def word32BE (l : List Nat) : Nat := l.foldl (fun a b => a * 256 + b) 0

/-- SHA-256 padding: `0x80`, zeros to 56 mod 64, 64-bit big-endian bit length. -/
def padMsg (msg : List Nat) : List Nat :=
  let L := msg.length
  let k := (56 + 64 - (L + 1) % 64) % 64
  msg ++ 128 :: (List.replicate k 0 ++ bytesBE 8 (L * 8))

/-- The sixteen 32-bit words of one 64-byte block. -/
def blockWords (block : List Nat) : List Nat :=
  (List.range 16).map (fun i => word32BE ((block.drop (4 * i)).take 4))

/-- Message-schedule extension to 64 words. -/
def extendWords (w : List Nat) : List Nat :=
  (List.range 48).foldl
    (fun w _ =>
      w ++ [add32 (add32 (shaLs1 (w.getD (w.length - 2) 0)) (w.getD (w.length - 7) 0))
              (add32 (shaLs0 (w.getD (w.length - 15) 0)) (w.getD (w.length - 16) 0))])
    w

/-- One SHA-256 compression step over a 64-byte block. -/
def shaCompress (h : List Nat) (block : List Nat) : List Nat :=
  let w := extendWords (blockWords block)
  let st := (w.zip shaK).foldl
    (fun st wk =>
      match st with
      | [a, b, c, d, e, f, g, hh] =>
        let t1 := add32 (add32 (add32 (add32 hh (shaS1 e)) (shaCh e f g)) wk.2) wk.1
        let t2 := add32 (shaS0 a) (shaMaj a b c)
        [add32 t1 t2, a, b, c, add32 d t1, e, f, g]
      | other => other)
    h
  match h, st with
  | [h0, h1, h2, h3, h4, h5, h6, h7], [a, b, c, d, e, f, g, hh] =>
    [add32 h0 a, add32 h1 b, add32 h2 c, add32 h3 d,
     add32 h4 e, add32 h5 f, add32 h6 g, add32 h7 hh]
  | _, _ => h

/-- Split a padded message into 64-byte blocks. -/
def chunksOf64 (l : List Nat) : List (List Nat) :=
  (List.range (l.length / 64)).map (fun i => (l.drop (64 * i)).take 64)

/-- SHA-256 digest (32 bytes) of a byte list. -/
def sha256 (msg : List Nat) : List Nat :=
  (((chunksOf64 (padMsg msg)).foldl shaCompress shaH0).map (bytesBE 4)).join

/-- UTF-8 bytes of one character (`str.encode('utf-8')`). -/
def utf8Bytes (c : Char) : List Nat :=
  let n := c.toNat
  if n < 128 then [n]
  else if n < 2048 then [192 + n / 64, 128 + n % 64]
  else if n < 65536 then [224 + n / 4096, 128 + n / 64 % 64, 128 + n % 64]
  else [240 + n / 262144, 128 + n / 4096 % 64, 128 + n / 64 % 64, 128 + n % 64]

/-- UTF-8 encoding of a string. -/
def strUtf8 (s : String) : List Nat := (s.data.map utf8Bytes).join

/-- The fallback entry id of `convert_entry`:
`int(hashlib.sha256(f"{title}:{expr}:{rdg}".encode('utf-8')).hexdigest()[:8], 16)`,
i.e. the first four digest bytes read as a big-endian number. -/
def hashSeqId (title expr rdg : String) : Int :=
  Int.ofNat (word32BE ((sha256 (strUtf8 (title ++ ":" ++ expr ++ ":" ++ rdg))).take 4))

/-- Sanity vector: SHA-256 of `"abc"` matches the published test vector. -/
theorem sha256_abc :
    sha256 (strUtf8 "abc") =
      [186, 120, 22, 191, 143, 1, 207, 234,
       65, 65, 64, 222, 93, 174, 34, 35,
       176, 3, 97, 163, 150, 23, 122, 156,
       180, 16, 255, 97, 242, 0, 21, 173] := by
  decide

/-! ## Packaged-lexicon (Yomichan) renderer, `yomichan.py` -/

/-- `pathlib.Path(p).as_uri()`: requires an absolute path
(`ValueError` otherwise).  Percent-encoding of special characters and
Windows drive letters are not modelled; no claim depends on them. -/
def pathAsUri (p : String) : Except PyErr String :=
  if p.data.take 1 = ['/'] then .ok ("file://" ++ p) else .error .valueError

/-- `_handle_img_tag`: resolve `data.src or path` through the injected
image handler; empty result or missing handler renders nothing. -/
def handleImgTag (ih : Option (JValue → String)) (kvs : List (String × JValue)) :
    Except PyErr String := do
  let d := jgetD kvs "data" (.obj [])
  let src ← pyGet d "src" .null
  let image_path := pyOr src (jgetD kvs "path" .null)
  match ih with
  | some h =>
    if truthy image_path then
      let local_path := h image_path
      if local_path ≠ "" then do
        let uri ← pathAsUri local_path
        pure ("<img src=\"" ++ uri ++ "\" style=\"max-width: 100%; height: auto;\">")
      else pure ""
    else pure ""
  | none => pure ""

/-- The child scan of `_handle_graphic_node` over a list `content`: the
first truthy image path wins (a falsy path assigned by one child and
never overwritten is indistinguishable from `None` downstream, since the
result is only used through its truthiness and, when truthy, its value). -/
def scanGraphicChildren : List JValue → Except PyErr JValue
  | [] => .ok .null
  | child :: rest =>
    match child with
    | .obj ckvs => do
      let tagc := jgetD ckvs "tag" .null
      let image_path ←
        if JValue.beq tagc (.str "img") then do
          let d := jgetD ckvs "data" (.obj [])
          let src ← pyGet d "src" .null
          pure (pyOr src (jgetD ckvs "path" .null))
        else if JValue.beq tagc (.str "a") then do
          let d := jgetD ckvs "data" (.obj [])
          pyGet d "path" .null
        else pure .null
      if truthy image_path then .ok image_path else scanGraphicChildren rest
    | _ => scanGraphicChildren rest

/-- The path-finding first half of `_handle_graphic_node`: inspect the
node's `content` (a list of children or a single child dict) for an
`img`/`a` child carrying an image path. -/
def graphicImagePath (kvs : List (String × JValue)) : Except PyErr JValue :=
  match jgetD kvs "content" .null with
  | .arr xs => scanGraphicChildren xs
  | .obj ckvs => do
    let tagc := jgetD ckvs "tag" .null
    if JValue.beq tagc (.str "img") then do
      let d := jgetD ckvs "data" (.obj [])
      let src ← pyGet d "src" .null
      pure (pyOr src (jgetD ckvs "path" .null))
    else if JValue.beq tagc (.str "a") then do
      let d := jgetD ckvs "data" (.obj [])
      pyGet d "path" .null
    else pure .null
  | _ => pure .null

/-- `_handle_graphic_node`: find an image path among the node's children,
then resolve it exactly as `_handle_img_tag` does (wrapped in a div). -/
def handleGraphicNode (ih : Option (JValue → String)) (kvs : List (String × JValue)) :
    Except PyErr String := do
  let image_path ← graphicImagePath kvs
  match ih with
  | some h =>
    if truthy image_path then
      let local_path := h image_path
      if local_path ≠ "" then do
        let uri ← pathAsUri local_path
        pure ("<div style=\"margin: 5px 0;\"><img src=\"" ++ uri
          ++ "\" style=\"max-width: 100%; height: auto;\"></div>")
      else pure ""
    else pure ""
  | none => pure ""

/-- The `br`/`span`/`div`/`ul`/`ol`/`li`/`ruby`/`table`/`tr`/`th`/`td`
chain of `_convert_node_to_html`, applied after the inner markup is
rendered.  The `span`/`div`/`ul`/`li` branches read `data.get(...)`,
which raises `AttributeError` when the node carries a non-dict `data`. -/
def convertTagged (tag data : JValue) (inner : String) : Except PyErr String :=
  if JValue.beq tag (.str "br") then .ok "<br>"
  else if JValue.beq tag (.str "span") then do
    let sc ← pyGet data "content" .null
    let scl ← pyGet data "class" .null
    let style :=
      (if JValue.beq scl (.str "tag") then
        ["font-size: 0.8em", "font-weight: bold", "margin-right: 0.5em",
         "padding: 0.2em 0.3em", "vertical-align: text-bottom",
         "border-radius: 3px"]
       else []) ++
      (if JValue.beq sc (.str "part-of-speech-info") then
        ["background-color: #565656", "color: white"]
       else if JValue.beq sc (.str "misc-info") then
        ["background-color: brown", "color: white"]
       else if JValue.beq sc (.str "field-info") then
        ["background-color: purple", "color: white"]
       else if JValue.beq sc (.str "dialect-info") then
        ["background-color: green", "color: white"]
       else if JValue.beq sc (.str "lang-source-wasei") then
        ["background-color: orange", "color: black"]
       else if JValue.beq sc (.str "example-keyword") then
        ["color: #00FF00"]
       else if JValue.beq sc (.str "reference-label") then
        ["font-size: 0.8em", "margin-right: 0.5rem", "color: #888"]
       else [])
    let style_str := String.intercalate "; " style
    if style_str ≠ "" then
      .ok ("<span style=\"" ++ style_str ++ "\">" ++ inner ++ "</span>")
    else .ok ("<span>" ++ inner ++ "</span>")
  else if JValue.beq tag (.str "div") then do
    let sc ← pyGet data "content" .null
    let scl ← pyGet data "class" .null
    let style :=
      (if JValue.beq scl (.str "extra-box") then
        ["border-radius: 0.4rem", "border-style: none none none solid",
         "border-width: 3px", "margin-bottom: 0.5rem", "margin-top: 0.5rem",
         "padding: 0.5rem", "width: fit-content"]
       else []) ++
      (if JValue.beq sc (.str "example-sentence") then
        ["margin-top: 0.5em", "margin-bottom: 0.5em", "padding-left: 0.5em",
         "border-left: 3px solid gray"]
       else if JValue.beq sc (.str "info-gloss") then
        ["border-color: green", "background-color: rgba(0, 128, 0, 0.1)"]
       else if JValue.beq sc (.str "sense-note") then
        ["border-color: goldenrod", "background-color: rgba(218, 165, 32, 0.1)"]
       else if JValue.beq sc (.str "lang-source") then
        ["border-color: purple", "background-color: rgba(128, 0, 128, 0.1)"]
       else if JValue.beq sc (.str "xref") then
        ["border-color: #1A73E8", "background-color: rgba(26, 115, 232, 0.1)"]
       else if JValue.beq sc (.str "antonym") then
        ["border-color: brown", "background-color: rgba(165, 42, 42, 0.1)"]
       else [])
    let style_str := String.intercalate "; " style
    if style_str ≠ "" then
      .ok ("<div style=\"" ++ style_str ++ "\">" ++ inner ++ "</div>")
    else .ok ("<div>" ++ inner ++ "</div>")
  else if JValue.beq tag (.str "ul") then do
    let sc ← pyGet data "content" .null
    let style :=
      if JValue.beq sc (.str "sense-groups") then ["list-style-type: none"]
      else if JValue.beq sc (.str "glossary") then
        ["list-style-type: disc", "padding-left: 1.5em"]
      else []
    let style_str := String.intercalate "; " style
    if style_str ≠ "" then
      .ok ("<ul style=\"" ++ style_str ++ "\">" ++ inner ++ "</ul>")
    else .ok ("<ul>" ++ inner ++ "</ul>")
  else if JValue.beq tag (.str "ol") then .ok ("<ol>" ++ inner ++ "</ol>")
  else if JValue.beq tag (.str "li") then do
    let sc ← pyGet data "content" .null
    let style :=
      if JValue.beq sc (.str "sense-group") then ["margin-top: 0.1em"]
      else if JValue.beq sc (.str "forms") then ["margin-top: 0.5em"]
      else []
    let style_str := String.intercalate "; " style
    if style_str ≠ "" then
      .ok ("<li style=\"" ++ style_str ++ "\">" ++ inner ++ "</li>")
    else .ok ("<li>" ++ inner ++ "</li>")
  else if JValue.beq tag (.str "ruby") then .ok inner
  else if JValue.beq tag (.str "table") then
    .ok ("<table border=\"1\" style=\"border-collapse: collapse; margin-top: 0.2em;\">"
      ++ inner ++ "</table>")
  else if JValue.beq tag (.str "tr") then .ok ("<tr>" ++ inner ++ "</tr>")
  else if JValue.beq tag (.str "th") then
    .ok ("<th style=\"border: 1px solid #555; padding: 2px; text-align: left; font-weight: normal;\">"
      ++ inner ++ "</th>")
  else if JValue.beq tag (.str "td") then
    .ok ("<td style=\"border: 1px solid #555; padding: 2px; text-align: center;\">"
      ++ inner ++ "</td>")
  else .ok inner

mutual
/-- `_convert_node_to_html` from `yomichan.py`.  Strings get the four
`replace` calls (`&`, `<`, `>`, and newline to `<br>`); lists concatenate;
dicts dispatch on `tag` (ruby text suppressed, graphic/img resolved via
the injected handler, everything else wrapped via `convertTagged`); any
other value renders as `""`. -/
def convertNode (ih : Option (JValue → String)) : JValue → Except PyErr String
  | .str s =>
    .ok (pyReplaceS (pyReplaceS (pyReplaceS (pyReplaceS s "&" "&amp;")
      "<" "&lt;") ">" "&gt;") "\n" "<br>")
  | .arr xs => convertNodeList ih xs
  | .obj kvs => do
    let tag := jgetD kvs "tag" .null
    let data := jgetD kvs "data" (.obj [])
    if JValue.beq tag (.str "rt") then pure ""
    else do
      let isGraphic ←
        if JValue.beq tag (.str "div") then do
          let g ← pyGet data "content" .null
          pure (JValue.beq g (.str "graphic"))
        else pure false
      if isGraphic then handleGraphicNode ih kvs
      else if JValue.beq tag (.str "img") then handleImgTag ih kvs
      else do
        let inner ←
          match hc : lookupJ "content" kvs with
          | some c => if truthy c then convertNode ih c else pure ""
          | none => pure ""
        convertTagged tag data inner
  | _ => .ok ""
termination_by n => sizeOf n
decreasing_by
  all_goals simp_wf
  all_goals try omega
  all_goals (have h5 := lookupJ_sizeOf _ _ hc; omega)

/-- `"".join(self._convert_node_to_html(x) for x in node)`. -/
def convertNodeList (ih : Option (JValue → String)) :
    List JValue → Except PyErr String
  | [] => .ok ""
  | x :: xs => do
    let s ← convertNode ih x
    let rest ← convertNodeList ih xs
    pure (s ++ rest)
termination_by xs => sizeOf xs
decreasing_by
  all_goals simp_wf
  all_goals omega
end

mutual
/-- `_extract_text_recursive`: concatenate raw string content, skipping
ruby text, descending into `content` whenever the key is present. -/
def extractTextRecursive : JValue → String
  | .str s => s
  | .arr xs => extractTextList xs
  | .obj kvs =>
    if JValue.beq (jgetD kvs "tag" .null) (.str "rt") then ""
    else
      match hc : lookupJ "content" kvs with
      | some c => extractTextRecursive c
      | none => ""
  | _ => ""
termination_by n => sizeOf n
decreasing_by
  all_goals simp_wf
  all_goals try omega
  all_goals (have h5 := lookupJ_sizeOf _ _ hc; omega)

/-- `"".join(_extract_text_recursive(x) for x in item)`. -/
def extractTextList : List JValue → String
  | [] => ""
  | x :: xs => extractTextRecursive x ++ extractTextList xs
termination_by xs => sizeOf xs
decreasing_by
  all_goals simp_wf
  all_goals omega
end

/-- `_stringify_glossary`: strings pass through; structured-content dicts
render through `_convert_node_to_html`; other dicts fall back to text
extraction and then to `str(item)`; all other values to `str(item)`. -/
def stringifyGlossary (ih : Option (JValue → String)) :
    List JValue → Except PyErr (List String)
  | [] => .ok []
  | item :: rest => do
    let head ←
      match item with
      | .str s => pure [s]
      | .obj kvs => do
        let t ← pyGet item "type" .null
        if JValue.beq t (.str "structured-content") then do
          let content := jgetD kvs "content" .null
          let html ← convertNode ih content
          pure [html]
        else
          let text := extractTextRecursive item
          if text ≠ "" then pure [text] else pure [pyStr item]
      | _ => pure [pyStr item]
    let tail ← stringifyGlossary ih rest
    pure (head ++ tail)

/-! ## `YomichanConverter.convert_entry` -/

/-- The canonical entry (dict) produced by `convert_entry`. -/
structure YEntry where
  id : Int
  kebs : List JValue
  rebs : List JValue
  senses : JValue
  raw_k_ele : JValue
  raw_r_ele : JValue
  raw_sense : JValue
  source : String

/-- The glossary normalisation of `convert_entry`: lists go through
`_stringify_glossary`, anything else becomes `[str(glossary)]`. -/
def normGlossary (ih : Option (JValue → String)) (gl : JValue) :
    Except PyErr (List String) :=
  match gl with
  | .arr gs => stringifyGlossary ih gs
  | _ => pure [pyStr gl]

/-- The glossary source picked by the recovery branch:
`item[5] if len(item) > 5 else (item[2] if len(item) > 2 else [])`. -/
def recoveryGlossSrc (xs : List JValue) : JValue :=
  if xs.length > 5 then xs.getD 5 .null
  else if xs.length > 2 then xs.getD 2 .null
  else .arr []

/-- `v.split(' ') if v else []` (the `definition_tags`/`term_tags`
handling in `convert_entry`). -/
def optSplit (v : JValue) : Except PyErr (List String) :=
  if truthy v then pySplitSpace v else pure []

/-- The main (full-length-record) body of `convert_entry`, with the eight
positional fields already in hand.  Any Python exception raised inside it
is reported in the `Except` layer; the caller's `except Exception` turns
it into `None` (no list indexing occurs here, so no `IndexError` can
arise to take the recovery route instead). -/
def convertEntryMain (ih : Option (JValue → String))
    (e r dt rl sc gl sq tt : JValue) (title : String) :
    Except PyErr (Option YEntry) := do
  if ¬ truthy e ∧ ¬ truthy r then pure none
  else do
    let glossary ← normGlossary ih gl
    let entry_id :=
      match pyInt sq with
      | .ok n => n
      | .error _ => hashSeqId title (pyStr e) (pyStr r)
    let kebs := if truthy e then [e] else []
    let rebs := if truthy r then [r] else []
    if rebs.isEmpty ∧ kebs.isEmpty then pure none
    else do
      let pos ← optSplit dt
      let misc ← optSplit tt
      pure (some {
        id := entry_id, kebs := kebs, rebs := rebs,
        senses := .arr [.obj [("glosses", .arr (glossary.map .str)),
                              ("pos", .arr (pos.map .str))]],
        raw_k_ele := .arr (if truthy e then [.obj [("keb", e), ("pri", .arr [])]] else []),
        raw_r_ele := .arr (if truthy r then
          [.obj [("reb", r), ("restr", .arr []), ("pri", .arr [])]] else []),
        raw_sense := .arr [.obj [("misc", .arr (misc.map .str)),
                                 ("pos", .arr (pos.map .str)),
                                 ("gloss", .arr (glossary.map .str))]],
        source := title })

/-- The `except IndexError` recovery branch of `convert_entry`: taken for
list records shorter than eight fields.  It re-reads `item[0]`/`item[1]`
(failing to `None` when absent), takes the glossary from position 5 or 2
when present, and always derives the id by hashing. -/
def convertEntryRecovery (ih : Option (JValue → String))
    (xs : List JValue) (title : String) : Option YEntry :=
  match xs with
  | e :: r :: _ =>
    if ¬ truthy e ∧ ¬ truthy r then none
    else
      match normGlossary ih (recoveryGlossSrc xs) with
      | .error _ => none
      | .ok glossary =>
        some {
          id := hashSeqId title (pyStr e) (pyStr r),
          kebs := if truthy e then [e] else [],
          rebs := if truthy r then [r] else [],
          senses := .arr [.obj [("glosses", .arr (glossary.map .str)),
                                ("pos", .arr [])]],
          raw_k_ele := .arr (if truthy e then [.obj [("keb", e), ("pri", .arr [])]] else []),
          raw_r_ele := .arr (if truthy r then
            [.obj [("reb", r), ("restr", .arr []), ("pri", .arr [])]] else []),
          raw_sense := .arr [.obj [("misc", .arr []), ("pos", .arr []),
                                   ("gloss", .arr (glossary.map .str))]],
          source := title }
  | _ => none

/-- `convert_entry(item, dict_title)`: total (`try`/`except` catches
everything), returning `none` for non-list records and for any record
whose processing raises; short list records take the recovery branch. -/
def convert_entry (ih : Option (JValue → String)) (item : JValue)
    (title : String) : Option YEntry :=
  match item with
  | .arr xs =>
    match xs with
    | e :: r :: dt :: rl :: sc :: gl :: sq :: tt :: _ =>
      match convertEntryMain ih e r dt rl sc gl sq tt title with
      | .ok res => res
      | .error _ => none
    | _ => convertEntryRecovery ih xs title
  | _ => none

/-! ## Entry store (`customdict.py`, class `Dictionary`) -/

/-- `CompactEntry` (`customdict.py`): the stored entry record.  `id` keeps
whatever value the source supplied (`entry_data['seq']` for the bundled
lexicon, an `int` for converted packaged-lexicon entries). -/
structure CompactEntry where
  id : JValue
  kebs : List JValue
  rebs : List JValue
  senses : JValue
  raw_k_ele : JValue
  raw_r_ele : JValue
  raw_sense : JValue
deriving DecidableEq

/-- One lookup map: `defaultdict(list)` keyed by written form / reading,
as an insertion-ordered association list. -/
abbrev LookupMap := List (JValue × List Nat)

/-- Key type of the priority/frequency maps: `(written_form, reading)`. -/
abbrev PairKey := JValue × JValue

/-- Equality of pair keys. -/
def pairBeq (a b : PairKey) : Bool := JValue.beq a.1 b.1 && JValue.beq a.2 b.2

/-- A priority/frequency map, insertion-ordered. -/
abbrev PairMap := List (PairKey × JValue)

/-- The in-memory `Dictionary` state. -/
structure Dictionary where
  entries : List CompactEntry
  lookup_kan : LookupMap
  lookup_kana : LookupMap
  deconjugator_rules : List JValue
  priority_map : PairMap
  frequency_map : PairMap

/-- `Dictionary.__init__`. -/
def emptyDict : Dictionary :=
  { entries := [], lookup_kan := [], lookup_kana := [],
    deconjugator_rules := [], priority_map := [], frequency_map := [] }

/-- A throwaway concrete compact entry for witnesses. -/
def cmptyEntry : CompactEntry :=
  { id := .num 0, kebs := [], rebs := [], senses := .null,
    raw_k_ele := .null, raw_r_ele := .null, raw_sense := .null }

/-- `self.lookup_kan[keb].append(i)` on a `defaultdict(list)`: append to
the key's list, creating the key (at the end, in insertion order) when
missing. -/
def dictAppendIdx (m : LookupMap) (k : JValue) (i : Nat) : LookupMap :=
  match m with
  | [] => [(k, [i])]
  | (k', l) :: rest =>
    if JValue.beq k' k then (k', l ++ [i]) :: rest
    else (k', l) :: dictAppendIdx rest k i

/-- `m.get(k)` on a lookup map (no default insertion). -/
def dictGetIdx (m : LookupMap) (k : JValue) : Option (List Nat) :=
  match m with
  | [] => none
  | (k', l) :: rest => if JValue.beq k' k then some l else dictGetIdx rest k

/-- The position list an exact-form lookup resolves for key `k`
(empty when the key is unknown). -/
def lookupPositions (m : LookupMap) (k : JValue) : List Nat :=
  (dictGetIdx m k).getD []

/-- `m.get(k)` on a pair-keyed map. -/
def pairGet (m : PairMap) (k : PairKey) : Option JValue :=
  match m with
  | [] => none
  | (k', v) :: rest => if pairBeq k' k then some v else pairGet rest k

/-- `m[k] = v` on a pair-keyed dict: overwrite in place, or append a new
key at the end (Python insertion order). -/
def pairInsert (m : PairMap) (k : PairKey) (v : JValue) : PairMap :=
  match m with
  | [] => [(k, v)]
  | (k', w) :: rest =>
    if pairBeq k' k then (k', v) :: rest
    else (k', w) :: pairInsert rest k v

/-- `m.update(inc)`: left-to-right insertion of the incoming items. -/
def pairUpdate (m inc : PairMap) : PairMap :=
  inc.foldl (fun acc kv => pairInsert acc kv.1 kv.2) m

/-- Register one entry's written forms (or readings) at position `i`. -/
def regForms (m : LookupMap) (ks : List JValue) (i : Nat) : LookupMap :=
  ks.foldl (fun acc k => dictAppendIdx acc k i) m

/-- An element of the entry list handed to `_add_entries`: either a dict
produced by the converter or an already-compact entry (e.g. from a cache). -/
inductive InEntry where
  | dict (e : YEntry)
  | compact (c : CompactEntry)

/-- The dict-to-`CompactEntry` conversion at the top of `_add_entries`
(the converter's `source` field is dropped). -/
def toCompact : InEntry → CompactEntry
  | .dict e =>
    { id := .num e.id, kebs := e.kebs, rebs := e.rebs, senses := e.senses,
      raw_k_ele := e.raw_k_ele, raw_r_ele := e.raw_r_ele, raw_sense := e.raw_sense }
  | .compact c => c

/-- The `for i, entry in enumerate(compact_entries)` registration loop of
`_add_entries`: entry `j` of the batch is registered at position
`start + j` under all its written forms and readings. -/
def registerAll (lk lka : LookupMap) (i : Nat) :
    List CompactEntry → LookupMap × LookupMap
  | [] => (lk, lka)
  | e :: rest => registerAll (regForms lk e.kebs i) (regForms lka e.rebs i) (i + 1) rest

/-- `Dictionary._add_entries(data, source_name)` with `data` already
unpacked into `(new_entries, frequency_map)`. -/
def add_entries (d : Dictionary) (new_entries : List InEntry)
    (frequency_map : PairMap) : Dictionary :=
  let compact_entries := new_entries.map toCompact
  let maps := registerAll d.lookup_kan d.lookup_kana d.entries.length compact_entries
  { d with
    entries := d.entries ++ compact_entries,
    lookup_kan := maps.1,
    lookup_kana := maps.2,
    frequency_map :=
      if frequency_map.isEmpty then d.frequency_map
      else pairUpdate d.frequency_map frequency_map }

/-- `{'glosses': glosses, 'pos': [p.strip('&;') for p in pos]}`. -/
def jmSenseObj (glosses : List JValue) (pos : List String) : JValue :=
  .obj [("glosses", .arr glosses), ("pos", .arr (pos.map .str))]

/-- The sense loop of `import_jmdict_json`: part-of-speech tags are
inherited from the previous sense when omitted (`last_pos` carry), and
only senses with a non-empty gloss list are kept. -/
def jmSenses : List JValue → JValue → Except PyErr (List JValue)
  | [], _ => .ok []
  | sense :: rest, last_pos => do
    let gl ← pyGet sense "gloss" (.arr [])
    let glosses ← pyIter gl
    let pos ← pyGet sense "pos" last_pos
    if glosses.isEmpty then jmSenses rest pos
    else do
      let posl ← pyIter pos
      let stripped ← posl.mapM (fun p => pyStrip p ['&', ';'])
      let tail ← jmSenses rest pos
      pure (jmSenseObj glosses stripped :: tail)

/-- One iteration of the record loop of `import_jmdict_json`.  Records
with no written form and no reading, or no processed sense, are skipped;
otherwise the entry is appended and registered under all its forms.
An exception (e.g. a record without `'seq'`) aborts before any mutation
of this record. -/
def processJmRecord (d : Dictionary) (entry_data : JValue) :
    Except PyErr Dictionary := do
  let ke ← pyGet entry_data "k_ele" (.arr [])
  let kl ← pyIter ke
  let kebs ← kl.mapM (fun k => pySubscrKey k "keb")
  let re ← pyGet entry_data "r_ele" (.arr [])
  let rl ← pyIter re
  let rebs ← rl.mapM (fun r => pySubscrKey r "reb")
  let se ← pyGet entry_data "sense" (.arr [])
  let sl ← pyIter se
  let senses_processed ← jmSenses sl (.arr [])
  if (kebs.isEmpty ∧ rebs.isEmpty) ∨ senses_processed.isEmpty then pure d
  else do
    let seq ← pySubscrKey entry_data "seq"
    let entry : CompactEntry :=
      { id := seq, kebs := kebs, rebs := rebs, senses := .arr senses_processed,
        raw_k_ele := ke, raw_r_ele := re, raw_sense := se }
    let entries2 := d.entries ++ [entry]
    let entry_index := entries2.length - 1
    pure ({ d with
              entries := entries2,
              lookup_kan := regForms d.lookup_kan kebs entry_index,
              lookup_kana := regForms d.lookup_kana rebs entry_index })

/-- `import_jmdict_json` over the already-parsed, concatenated record
list.  An uncaught exception leaves the dictionary in the state reached
by the fully processed records before it (per-record mutation is
all-or-nothing, since the failure points precede the append). -/
def import_jmdict_json (d : Dictionary) :
    List JValue → Dictionary × Option PyErr
  | [] => (d, none)
  | rcd :: rest =>
    match processJmRecord d rcd with
    | .ok d2 => import_jmdict_json d2 rest
    | .error e => (d, some e)

/-- An ingestion step: a bundled-lexicon import or one `_add_entries`
merge of a packaged-lexicon (or cached) result. -/
inductive DictOp where
  | importJm (records : List JValue)
  | addEntries (entries : List InEntry) (freq : PairMap)

/-- Apply one ingestion step. -/
def applyOp (d : Dictionary) : DictOp → Dictionary
  | .importJm records => (import_jmdict_json d records).1
  | .addEntries es fm => add_entries d es fm

/-- The dictionary state after a sequence of imports from start-up. -/
def applyOps (ops : List DictOp) : Dictionary := ops.foldl applyOp emptyDict

/-- The index-completeness invariant of the Store (spec §3): every entry
is reachable from each of its written forms and readings at its own
position. -/
def DictInv (d : Dictionary) : Prop :=
  ∀ p e k, d.entries[p]? = some e →
    (k ∈ e.kebs → p ∈ lookupPositions d.lookup_kan k) ∧
    (k ∈ e.rebs → p ∈ lookupPositions d.lookup_kana k)

/-- The spec's Scenario A bundled-lexicon record. -/
def recA : JValue :=
  .obj [("seq", .num 1),
        ("k_ele", .arr [.obj [("keb", .str "猫")]]),
        ("r_ele", .arr [.obj [("reb", .str "ねこ")]]),
        ("sense", .arr [.obj [("gloss", .arr [.str "cat"]),
                              ("pos", .arr [.str "n"])]])]

/-- The entry Scenario A produces at position 0. -/
def entryA : CompactEntry :=
  { id := .num 1, kebs := [.str "猫"], rebs := [.str "ねこ"],
    senses := .arr [.obj [("glosses", .arr [.str "cat"]),
                          ("pos", .arr [.str "n"])]],
    raw_k_ele := .arr [.obj [("keb", .str "猫")]],
    raw_r_ele := .arr [.obj [("reb", .str "ねこ")]],
    raw_sense := .arr [.obj [("gloss", .arr [.str "cat"]),
                             ("pos", .arr [.str "n"])]] }

/-! ## SQLite backend (`convert_to_sqlite`, `SqliteEntryList`,
`SqliteLookupMap`) -/

/-- The four tables written by `convert_to_sqlite` (pickle round-trips of
rows are modelled as the identity; the `TEXT PRIMARY KEY` uniqueness
constraint is not modelled — dict iteration never yields duplicates). -/
structure SqliteDB where
  entries_table : List (Nat × CompactEntry)
  lookup_kan_table : List (JValue × List Nat)
  lookup_kana_table : List (JValue × List Nat)
  meta_deconjugator_rules : List JValue
  meta_priority_map : PairMap
  meta_frequency_map : PairMap

/-- `Dictionary.convert_to_sqlite`: entries are inserted keyed by their
enumeration index, lookup and meta tables row-for-row from the dicts. -/
def convert_to_sqlite (d : Dictionary) : SqliteDB :=
  { entries_table := d.entries.enum,
    lookup_kan_table := d.lookup_kan,
    lookup_kana_table := d.lookup_kana,
    meta_deconjugator_rules := d.deconjugator_rules,
    meta_priority_map := d.priority_map,
    meta_frequency_map := d.frequency_map }

/-- `SELECT COUNT(*) FROM entries` (cached length of `SqliteEntryList`). -/
def sqliteEntryCount (db : SqliteDB) : Nat := db.entries_table.length

/-- `SELECT data FROM entries WHERE id = ?`. -/
def sqliteSelectEntry (db : SqliteDB) (i : Nat) : Option CompactEntry :=
  (db.entries_table.find? (fun row => row.1 == i)).map (·.2)

/-- `SqliteEntryList.__getitem__`: bounds-checked point lookup. -/
def sqliteEntryGet (db : SqliteDB) (index : Int) : Except PyErr CompactEntry :=
  if index < 0 ∨ index ≥ (sqliteEntryCount db : Int) then .error .indexError
  else
    match sqliteSelectEntry db index.toNat with
    | some e => .ok e
    | none => .error .indexError

/-- Insertion step of the `ORDER BY id` model. -/
def insertById (r : Nat × CompactEntry) :
    List (Nat × CompactEntry) → List (Nat × CompactEntry)
  | [] => [r]
  | x :: xs => if r.1 ≤ x.1 then r :: x :: xs else x :: insertById r xs

/-- `ORDER BY id`: sort rows by key. -/
def orderById (rows : List (Nat × CompactEntry)) : List (Nat × CompactEntry) :=
  rows.foldr insertById []

/-- `SqliteEntryList.__iter__`: all rows in id order (the `fetchmany`
batching preserves cursor order). -/
def sqliteEntryIter (db : SqliteDB) : List CompactEntry :=
  (orderById db.entries_table).map (·.2)

/-- `SqliteLookupMap.get`: point query on a lookup table, default on a
missing key. -/
def sqliteLookupGet (tbl : List (JValue × List Nat)) (k : JValue) :
    Option (List Nat) :=
  match tbl with
  | [] => none
  | (k', l) :: rest => if JValue.beq k' k then some l else sqliteLookupGet rest k

/-! ## Per-source cache (`_load_entries_from_cache`, `_save_to_cache`,
`_load_yomichan_zip_entries`) -/

/-- What an attempted unpickle of the cache file yields: failure, the
legacy bare entry list, or an `(entries, frequency_map)` pair. -/
inductive CacheContent where
  | corrupt
  | listData (es : List InEntry)
  | pairData (es : List InEntry) (fm : PairMap)

/-- The file-system facts `_load_entries_from_cache` branches on. -/
structure CacheEnv where
  cacheExists : Bool
  sourceMtime : Int
  cacheMtime : Int
  content : CacheContent

/-- `Dictionary._load_entries_from_cache`: `None` when the cache file is
missing, strictly older than the source, or unreadable; the legacy list
format is paired with an empty frequency map. -/
def load_entries_from_cache (env : CacheEnv) : Option (List InEntry × PairMap) :=
  if ¬ env.cacheExists then none
  else if env.sourceMtime > env.cacheMtime then none
  else
    match env.content with
    | .corrupt => none
    | .listData es => some (es, [])
    | .pairData es fm => some (es, fm)

/-- `os.path.basename`. -/
def basenameOf (p : String) : String :=
  String.mk ((p.data.reverse.takeWhile (· ≠ '/')).reverse)

/-- `Dictionary._load_yomichan_zip_entries` with the parse of the source
supplied as `parseResult`.  First component: the returned
`(entries, frequency_map), source_name` (or `None`); second component:
whether a fresh cache file was written successfully (`_save_to_cache`
catches its own failures, so `writeOk` influences nothing else). -/
def load_yomichan_zip_entries (env : CacheEnv) (writeOk : Bool)
    (parseResult : List InEntry × PairMap) (zip_path : String) :
    Option ((List InEntry × PairMap) × String) × Bool :=
  match load_entries_from_cache env with
  | some cached => (some (cached, basenameOf zip_path ++ " (Cached)"), false)
  | none =>
    if ¬ parseResult.1.isEmpty ∨ ¬ parseResult.2.isEmpty then
      (some (parseResult, basenameOf zip_path), writeOk)
    else (none, false)

/-! ## Loading (`load_dictionary`, `load_dictionary_sqlite`) -/

/-- Observable side effects of `load_dictionary` on the stored files. -/
inductive LoadEffect where
  | openSnapshot (p : String)
  | openDb (p : String)
  | convertDb (p : String)
deriving DecidableEq

/-- The file-system facts `load_dictionary` branches on. -/
structure LoadEnv where
  dbExists : Bool
  sqliteOk : Bool
  snapshotOk : Bool

/-- `Dictionary.load_dictionary_sqlite`: opens only the database. -/
def load_dictionary_sqlite (env : LoadEnv) (db_path : String) :
    Bool × List LoadEffect :=
  (env.sqliteOk, [.openDb db_path])

/-- `Dictionary.load_dictionary`: prefer an existing SQLite store at the
`.pkl`-to-`.db` path; otherwise read the snapshot and (when the bundled
lexicon is enabled) convert it to SQLite as a side effect. -/
def load_dictionary (enable_jmdict isLoaded : Bool) (env : LoadEnv)
    (file_path : String) : Bool × List LoadEffect :=
  if isLoaded then (true, [])
  else
    let db_path := pyReplaceS file_path ".pkl" ".db"
    if env.dbExists then load_dictionary_sqlite env db_path
    else if ¬ env.snapshotOk then (false, [.openSnapshot file_path])
    else
      (true, .openSnapshot file_path ::
        (if enable_jmdict then [.convertDb db_path] else []))

/-! ## Theorems -/

@[simp] theorem exceptBind_ok {α β : Type} (a : α) (f : α → Except PyErr β) :
    (Except.ok a : Except PyErr α) >>= f = f a := rfl

@[simp] theorem exceptBind_err {α β : Type} (e : PyErr) (f : α → Except PyErr β) :
    (Except.error e : Except PyErr α) >>= f = .error e := rfl

@[simp] theorem exceptPure_eq_ok {α : Type} (a : α) :
    (pure a : Except PyErr α) = .ok a := rfl

/-- `escape_html` as a whole-string map. -/
theorem escape_html_eq (s : String) :
    escape_html s = String.mk (escJoinMap escChar s.data) :=
  String.ext (escape_html_chars s)

theorem escChar4_comp (c : Char) :
    escJoinMap (fun x => if x = '\n' then "<br>".data else [x]) (escChar c) =
      escChar4 c := by
  by_cases h1 : c = '&'
  · subst h1; decide
  · by_cases h2 : c = '<'
    · subst h2; decide
    · by_cases h3 : c = '>'
      · subst h3; decide
      · by_cases h4 : c = '\n'
        · subst h4; decide
        · simp [escJoinMap, escChar, escChar4, h1, h2, h3, h4]

theorem convert_str_chars (s : String) :
    (pyReplaceS (escape_html s) "\n" "<br>").data = escJoinMap escChar4 s.data := by
  show pyReplace (escape_html s).data "\n".data "<br>".data = _
  rw [show ("\n".data : List Char) = ['\n'] from rfl, pyReplace_single,
    escape_html_chars, escJoinMap_escJoinMap]
  congr 1
  funext c
  exact escChar4_comp c

/-- `_convert_node_to_html` on a plain string node, as a whole-string map. -/
theorem convertNode_str (ih : Option (JValue → String)) (s : String) :
    convertNode ih (.str s) = .ok (String.mk (escJoinMap escChar4 s.data)) := by
  have h : convertNode ih (.str s) = .ok (pyReplaceS (escape_html s) "\n" "<br>") := by
    simp [convertNode]
    rfl
  rw [h]
  exact congrArg Except.ok (String.ext (convert_str_chars s))

/-- C7 (amended): the shared renderer returns a plain-text node with
exactly the three reserved markup characters escaped and everything else
unchanged; the packaged-lexicon renderer additionally rewrites each
newline to `<br>` (and is otherwise the same character-wise escape). -/
theorem c7_plain_text_escape (s : String) (ih : Option (JValue → String)) :
    render_node (.str s) = escape_html s ∧
    (escape_html s).data = escJoinMap escChar s.data ∧
    convertNode ih (.str s) = .ok (String.mk (escJoinMap escChar4 s.data)) :=
  ⟨by simp [render_node], escape_html_chars s, convertNode_str ih s⟩

/-- C7 (counterexample): the packaged-lexicon renderer does not leave a
newline — a character outside the three reserved ones — unchanged: it
renders `"\n"` as `"<br>"`. -/
theorem c7_counterexample :
    convertNode none (.str "\n") = .ok "<br>" ∧ ("<br>" : String) ≠ "\n" := by
  constructor
  · rw [convertNode_str]
    exact congrArg Except.ok (by decide)
  · decide

/-- C10: `render_node` is a total function; a number, boolean or `None`
node renders as `""`, and a dict node without a `tag` key renders as the
render of its truthy `content` (`""` when `content` is absent or falsy). -/
theorem c10_render_node_total (n : Int) (b : Bool) (kvs : List (String × JValue))
    (htag : lookupJ "tag" kvs = none) :
    render_node (.num n) = "" ∧ render_node (.bool b) = "" ∧
    render_node .null = "" ∧
    (lookupJ "content" kvs = none → render_node (.obj kvs) = "") ∧
    (∀ c, lookupJ "content" kvs = some c →
      render_node (.obj kvs) = if truthy c then render_node c else "") := by
  refine ⟨by simp [render_node], by simp [render_node], by simp [render_node],
    ?_, ?_⟩
  · intro hc
    rw [render_node]
    simp [jgetD, htag, truthy]
    split <;> simp_all
  · intro c hc
    rw [render_node]
    simp [jgetD, htag, truthy]
    split <;> simp_all

/-- Witness for C10 at a concrete tagless dict node. -/
theorem c10_witness :
    lookupJ "tag" [("content", JValue.str "hi")] = none ∧
    lookupJ "content" [("content", JValue.str "hi")] = some (.str "hi") ∧
    render_node (.obj [("content", .str "hi")]) = "hi" := by
  have h := (c10_render_node_total 0 false [("content", JValue.str "hi")] rfl).2.2.2.2
    (.str "hi") rfl
  refine ⟨rfl, rfl, ?_⟩
  rw [h]
  simp [truthy, render_node, escape_html_eq]
  decide

theorem renderTag_img (inner : String) : renderTag (.str "img") inner = "[Image]" := by
  rfl

/-- C6 (counterexample): the shared renderer does not consult a resource
resolver at all — an `img` node renders as the fixed placeholder
`"[Image]"`, not as the empty string, even though no resolver exists. -/
theorem c6_counterexample :
    render_node (.obj [("tag", JValue.str "img")]) = "[Image]" ∧
    ("[Image]" : String) ≠ "" := by
  constructor
  · rw [render_node]
    simp [jgetD, lookupJ, truthy, renderTag_img]
  · decide

/-- C6 (amended): in the packaged-lexicon renderer an `img` node
dispatches to `_handle_img_tag`, and image/graphic resolution behaves as
claimed there: no injected handler, a falsy path, or a handler returning
`""` all render the empty string, and a handler returning a non-empty
absolute path renders an image element at the `file://` URI.  The shared
renderer instead renders the fixed placeholder `"[Image]"` for `img`
nodes and never consults a resolver. -/
theorem c6_image_resolution :
    (∀ ih kvs, jgetD kvs "tag" .null = .str "img" →
      convertNode ih (.obj kvs) = handleImgTag ih kvs) ∧
    (∀ kvs, jgetD kvs "tag" .null = .str "img" →
      render_node (.obj kvs) = "[Image]") ∧
    (∀ kvs dkvs, jgetD kvs "data" (.obj []) = .obj dkvs →
      handleImgTag none kvs = .ok "" ∧
      (¬ truthy (pyOr (jgetD dkvs "src" .null) (jgetD kvs "path" .null)) →
        ∀ h, handleImgTag (some h) kvs = .ok "") ∧
      (∀ h, truthy (pyOr (jgetD dkvs "src" .null) (jgetD kvs "path" .null)) →
        h (pyOr (jgetD dkvs "src" .null) (jgetD kvs "path" .null)) = "" →
        handleImgTag (some h) kvs = .ok "") ∧
      (∀ h, truthy (pyOr (jgetD dkvs "src" .null) (jgetD kvs "path" .null)) →
        h (pyOr (jgetD dkvs "src" .null) (jgetD kvs "path" .null)) ≠ "" →
        (h (pyOr (jgetD dkvs "src" .null) (jgetD kvs "path" .null))).data.take 1 = ['/'] →
        handleImgTag (some h) kvs =
          .ok ("<img src=\"file://"
            ++ h (pyOr (jgetD dkvs "src" .null) (jgetD kvs "path" .null))
            ++ "\" style=\"max-width: 100%; height: auto;\">"))) ∧
    (∀ ih kvs p, graphicImagePath kvs = .ok p →
      (¬ truthy p → handleGraphicNode ih kvs = .ok "") ∧
      (ih = none → handleGraphicNode ih kvs = .ok "") ∧
      (∀ h, ih = some h → truthy p → h p = "" → handleGraphicNode ih kvs = .ok "") ∧
      (∀ h, ih = some h → truthy p → h p ≠ "" → (h p).data.take 1 = ['/'] →
        handleGraphicNode ih kvs =
          .ok ("<div style=\"margin: 5px 0;\"><img src=\"file://" ++ h p
            ++ "\" style=\"max-width: 100%; height: auto;\"></div>"))) := by
  refine ⟨?_, ?_, ?_, ?_⟩
  · intro ih kvs htag
    rw [convertNode]
    rw [htag]
    simp [JValue.beq, Except.bind, pure, Except.pure]
  · intro kvs htag
    rw [render_node]
    rw [htag]
    simp [truthy, renderTag_img]
  · intro kvs dkvs hdata
    refine ⟨?_, ?_, ?_, ?_⟩
    · simp [handleImgTag, hdata, pyGet, Except.bind, pure, Except.pure]
    · intro hp h
      simp [handleImgTag, hdata, pyGet, Except.bind, pure, Except.pure, hp]
    · intro h hp hres
      simp [handleImgTag, hdata, pyGet, Except.bind, pure, Except.pure, hp, hres]
    · intro h hp hres hsw
      simp [handleImgTag, hdata, pyGet, Except.bind, pure, Except.pure, hp, hres,
        pathAsUri, hsw]
      rfl
  · intro ih kvs p hg
    refine ⟨?_, ?_, ?_, ?_⟩
    · intro hp
      cases ih <;>
        simp [handleGraphicNode, hg, Except.bind, pure, Except.pure, hp]
    · intro hih
      subst hih
      simp [handleGraphicNode, hg, Except.bind, pure, Except.pure]
    · intro h hih hp hres
      subst hih
      simp [handleGraphicNode, hg, Except.bind, pure, Except.pure, hp, hres]
    · intro h hih hp hres hsw
      subst hih
      simp [handleGraphicNode, hg, Except.bind, pure, Except.pure, hp, hres,
        pathAsUri, hsw]
      rfl

/-- Witness for C6: a concrete `img` node with a `src` path and a
resolver returning an absolute local path. -/
theorem c6_witness :
    jgetD [("tag", JValue.str "img"),
           ("data", JValue.obj [("src", JValue.str "i.png")])] "tag" .null
        = .str "img" ∧
    jgetD [("tag", JValue.str "img"),
           ("data", JValue.obj [("src", JValue.str "i.png")])] "data" (.obj [])
        = .obj [("src", JValue.str "i.png")] ∧
    convertNode (some (fun _ => "/cache/i.png"))
        (.obj [("tag", JValue.str "img"),
               ("data", JValue.obj [("src", JValue.str "i.png")])]) =
      .ok "<img src=\"file:///cache/i.png\" style=\"max-width: 100%; height: auto;\">" := by
  refine ⟨rfl, rfl, ?_⟩
  rw [c6_image_resolution.1 (some (fun _ => "/cache/i.png"))
    [("tag", JValue.str "img"), ("data", JValue.obj [("src", JValue.str "i.png")])] rfl]
  have h := (c6_image_resolution.2.2.1 [("tag", JValue.str "img"),
      ("data", JValue.obj [("src", JValue.str "i.png")])]
      [("src", JValue.str "i.png")] rfl).2.2.2
      (fun _ => "/cache/i.png") (by decide) (by decide) (by decide)
  rw [h]
  rfl

/-- The id computed by the full-record path of `convert_entry`:
`int(sequence)` when that parses, otherwise the hash of
`(title, expression, reading)`. -/
theorem convertEntryMain_id
    (ih : Option (JValue → String)) (e r dt rl sc gl sq tt : JValue)
    (title : String) (en : YEntry)
    (h : convertEntryMain ih e r dt rl sc gl sq tt title = .ok (some en)) :
    en.id = (match pyInt sq with
             | .ok n => n
             | .error _ => hashSeqId title (pyStr e) (pyStr r)) := by
  unfold convertEntryMain at h
  split at h
  · simp at h
  · cases hg : normGlossary ih gl with
    | error err => rw [hg] at h; simp at h
    | ok g =>
      rw [hg] at h
      simp only [exceptBind_ok] at h
      split at h
      all_goals try simp at h
      all_goals
        cases hp : optSplit dt with
        | error e1 =>
          rw [hp] at h
          simp only [exceptBind_err] at h
          try split at h
          all_goals simp at h
        | ok pos =>
          rw [hp] at h
          simp only [exceptBind_ok] at h
          cases hm : optSplit tt with
          | error e2 =>
            rw [hm] at h
            simp only [exceptBind_err] at h
            try split at h
            all_goals simp at h
          | ok misc =>
            rw [hm] at h
            simp only [exceptBind_ok, exceptPure_eq_ok] at h
            try split at h
            all_goals
              first
              | (simp only [Except.ok.injEq, Option.some.injEq] at h
                 rw [← h])
              | simp at h

/-- C3 (counterexample): a seven-field record has a sequence field
(`item[6] = 7`) that parses as an integer, yet the converted entry's id
is not 7 — the shortfall at `item[7]` routes the record through the
recovery branch, which always hash-derives the id. -/
theorem c3_counterexample :
    pyInt (.num 7) = .ok 7 ∧
    (convert_entry none
        (.arr [.str "a", .str "b", .str "", .null, .num 0,
               .arr [.str "g"], .num 7]) "T").map YEntry.id ≠ some 7 := by
  refine ⟨rfl, ?_⟩
  decide

/-- C3 (amended): for a full record (at least the eight positional
fields), `convert_entry` assigns the id from the integer parse of the
sequence field when it succeeds and the deterministic hash of
`(title, expression, reading)` otherwise; short records always take the
hash.  (Determinism is intrinsic: the id is a function of those values.) -/
theorem c3_entry_id (ih : Option (JValue → String))
    (e r dt rl sc gl sq tt : JValue) (rest : List JValue) (title : String) :
    (∀ n, pyInt sq = .ok n →
      ∀ en ∈ convert_entry ih
          (.arr (e :: r :: dt :: rl :: sc :: gl :: sq :: tt :: rest)) title,
        en.id = n) ∧
    (∀ err, pyInt sq = .error err →
      ∀ en ∈ convert_entry ih
          (.arr (e :: r :: dt :: rl :: sc :: gl :: sq :: tt :: rest)) title,
        en.id = hashSeqId title (pyStr e) (pyStr r)) := by
  constructor
  · intro n hn en hen
    rw [convert_entry] at hen
    revert hen
    cases hm : convertEntryMain ih e r dt rl sc gl sq tt title with
    | error err => intro hen; simp at hen
    | ok res =>
      intro hen
      simp only [Option.mem_def] at hen
      subst hen
      have := convertEntryMain_id ih e r dt rl sc gl sq tt title en hm
      rw [this, hn]
  · intro err herr en hen
    rw [convert_entry] at hen
    revert hen
    cases hm : convertEntryMain ih e r dt rl sc gl sq tt title with
    | error err2 => intro hen; simp at hen
    | ok res =>
      intro hen
      simp only [Option.mem_def] at hen
      subst hen
      have := convertEntryMain_id ih e r dt rl sc gl sq tt title en hm
      rw [this, herr]

/-- Witness for C3 at the spec's Scenario B record. -/
theorem c3_witness :
    pyInt (.num 1) = .ok 1 ∧
    (∀ en ∈ convert_entry none
        (.arr [.str "猫", .str "ねこ", .str "n", .null, .num 0,
               .arr [.str "feline"], .num 1, .null]) "TestDict",
      en.id = 1) ∧
    (convert_entry none
        (.arr [.str "猫", .str "ねこ", .str "n", .null, .num 0,
               .arr [.str "feline"], .num 1, .null]) "TestDict").isSome = true := by
  refine ⟨rfl,
    (c3_entry_id none (.str "猫") (.str "ねこ") (.str "n") .null (.num 0)
      (.arr [.str "feline"]) (.num 1) .null [] "TestDict").1 1 rfl, ?_⟩
  rw [convert_entry]
  simp [convertEntryMain, normGlossary, stringifyGlossary, truthy, pyInt,
    optSplit, pySplitSpace]

/-- A list record with fewer than eight fields takes the recovery branch
of `convert_entry`. -/
theorem convert_entry_short (ih : Option (JValue → String)) (title : String)
    (e r : JValue) (rest : List JValue) (hlen : rest.length < 6) :
    convert_entry ih (.arr (e :: r :: rest)) title =
      convertEntryRecovery ih (e :: r :: rest) title := by
  rcases rest with _ | ⟨x1, _ | ⟨x2, _ | ⟨x3, _ | ⟨x4, _ | ⟨x5, rest5⟩⟩⟩⟩⟩
  · rfl
  · rfl
  · rfl
  · rfl
  · rfl
  · rcases rest5 with _ | ⟨x6, rest6⟩
    · rfl
    · exact absurd hlen (by simp)

/-- C5 (amended): `convert_entry` is total — every non-list record maps
to `None`, and a list record shorter than eight fields that still has
both the expression and reading slots (at least two fields), a truthy
expression or reading, and a glossary whose stringification does not
itself raise, recovers to an entry of just expression, reading and the
best-effort gloss (id hash-derived, no part-of-speech data).  A record
of fewer than two fields, or one whose glossary stringification raises,
yields `None` rather than an exception. -/
theorem c5_convert_entry_total :
    (∀ ih title s, convert_entry ih (.str s) title = none) ∧
    (∀ ih title n, convert_entry ih (.num n) title = none) ∧
    (∀ ih title b, convert_entry ih (.bool b) title = none) ∧
    (∀ ih title, convert_entry ih .null title = none) ∧
    (∀ ih title kvs, convert_entry ih (.obj kvs) title = none) ∧
    (∀ ih title e, convert_entry ih (.arr [e]) title = none) ∧
    (∀ ih title, convert_entry ih (.arr []) title = none) ∧
    (∀ ih title e r rest, rest.length < 6 →
      convert_entry ih (.arr (e :: r :: rest)) title =
        convertEntryRecovery ih (e :: r :: rest) title) ∧
    (∀ ih title e r rest gls, rest.length < 6 → truthy e ∨ truthy r →
      normGlossary ih (recoveryGlossSrc (e :: r :: rest)) = .ok gls →
      convert_entry ih (.arr (e :: r :: rest)) title = some
        { id := hashSeqId title (pyStr e) (pyStr r),
          kebs := if truthy e then [e] else [],
          rebs := if truthy r then [r] else [],
          senses := .arr [.obj [("glosses", .arr (gls.map .str)),
                                ("pos", .arr [])]],
          raw_k_ele := .arr (if truthy e then
            [.obj [("keb", e), ("pri", .arr [])]] else []),
          raw_r_ele := .arr (if truthy r then
            [.obj [("reb", r), ("restr", .arr []), ("pri", .arr [])]] else []),
          raw_sense := .arr [.obj [("misc", .arr []), ("pos", .arr []),
                                   ("gloss", .arr (gls.map .str))]],
          source := title }) := by
  refine ⟨fun _ _ _ => rfl, fun _ _ _ => rfl, fun _ _ _ => rfl, fun _ _ => rfl,
    fun _ _ _ => rfl, fun _ _ _ => rfl, fun _ _ => rfl, convert_entry_short, ?_⟩
  intro ih title e r rest gls hlen htr hg
  rw [convert_entry_short ih title e r rest hlen]
  rw [convertEntryRecovery]
  rcases htr with h | h <;> simp [h, hg]

/-- C5 (counterexample): a one-field record that carries a (truthy)
expression is not recovered — `item[1]` raises inside the recovery
branch too, and the record converts to `None`. -/
theorem c5_counterexample :
    truthy (.str "猫") = true ∧
    convert_entry none (.arr [.str "猫"]) "T" = none := by
  exact ⟨rfl, rfl⟩

/-- Witness for C5 at a concrete two-field record. -/
theorem c5_witness :
    ([] : List JValue).length < 6 ∧
    (truthy (.str "猫") = true ∨ truthy (.str "ねこ") = true) ∧
    normGlossary none (recoveryGlossSrc [.str "猫", .str "ねこ"]) = .ok [] ∧
    convert_entry none (.arr [.str "猫", .str "ねこ"]) "T" = some
      { id := hashSeqId "T" (pyStr (.str "猫")) (pyStr (.str "ねこ")),
        kebs := [.str "猫"],
        rebs := [.str "ねこ"],
        senses := .arr [.obj [("glosses", .arr []), ("pos", .arr [])]],
        raw_k_ele := .arr [.obj [("keb", .str "猫"), ("pri", .arr [])]],
        raw_r_ele := .arr [.obj [("reb", .str "ねこ"), ("restr", .arr []),
                                 ("pri", .arr [])]],
        raw_sense := .arr [.obj [("misc", .arr []), ("pos", .arr []),
                                 ("gloss", .arr [])]],
        source := "T" } := by
  refine ⟨by decide, Or.inl rfl, rfl, ?_⟩
  have h := c5_convert_entry_total.2.2.2.2.2.2.2.2 none "T"
    (.str "猫") (.str "ねこ") [] [] (by decide) (Or.inl rfl) rfl
  rw [h]
  simp [truthy]

/-- C4 (amended): the cache loader returns the cached pair exactly when
the cache file exists, is at least as new as the source (ties included —
not strictly newer, as claimed), and unpickles; it returns `None` on a
missing, strictly older, or corrupt cache so that the source is
re-parsed; the zip loader then returns the (non-empty) parse result
regardless of whether writing the fresh cache succeeds. -/
theorem c4_cache_policy (env : CacheEnv) :
    (env.cacheExists = false → load_entries_from_cache env = none) ∧
    (env.sourceMtime > env.cacheMtime → load_entries_from_cache env = none) ∧
    (env.content = .corrupt → load_entries_from_cache env = none) ∧
    (env.cacheExists = true → env.cacheMtime ≥ env.sourceMtime →
      ∀ es fm, env.content = .pairData es fm →
        load_entries_from_cache env = some (es, fm)) ∧
    (env.cacheExists = true → env.cacheMtime ≥ env.sourceMtime →
      ∀ es, env.content = .listData es →
        load_entries_from_cache env = some (es, [])) ∧
    (load_entries_from_cache env = none →
      ∀ (pr : List InEntry × PairMap) zp w,
        pr.1.isEmpty = false ∨ pr.2.isEmpty = false →
        (load_yomichan_zip_entries env w pr zp).1 = some (pr, basenameOf zp)) ∧
    (∀ c, load_entries_from_cache env = some c →
      ∀ pr zp w, (load_yomichan_zip_entries env w pr zp).1 =
        some (c, basenameOf zp ++ " (Cached)")) ∧
    (∀ pr zp, (load_yomichan_zip_entries env false pr zp).1 =
      (load_yomichan_zip_entries env true pr zp).1) := by
  refine ⟨?_, ?_, ?_, ?_, ?_, ?_, ?_, ?_⟩
  · intro h
    simp [load_entries_from_cache, h]
  · intro h
    simp [load_entries_from_cache, h]
  · intro h
    simp [load_entries_from_cache, h]
  · intro hce hge es fm hc
    simp [load_entries_from_cache, hce, hc,
      show ¬ env.sourceMtime > env.cacheMtime from by omega]
  · intro hce hge es hc
    simp [load_entries_from_cache, hce, hc,
      show ¬ env.sourceMtime > env.cacheMtime from by omega]
  · intro h pr zp w hne
    rcases hne with hne | hne <;>
      simp [load_yomichan_zip_entries, h, hne]
  · intro c h pr zp w
    simp [load_yomichan_zip_entries, h]
  · intro pr zp
    cases h : load_entries_from_cache env with
    | some c => simp [load_yomichan_zip_entries, h]
    | none =>
      by_cases hc : (¬ pr.1.isEmpty = true ∨ ¬ pr.2.isEmpty = true)
      · simp only [load_yomichan_zip_entries, h, if_pos hc]
      · simp only [load_yomichan_zip_entries, h, if_neg hc]

/-- C4 (counterexample): with equal modification times the cache is not
newer than the source, yet the cached pair is returned. -/
theorem c4_counterexample :
    load_entries_from_cache
      { cacheExists := true, sourceMtime := 5, cacheMtime := 5,
        content := .pairData [] [] } = some ([], []) ∧
    ¬ ((5 : Int) > 5) :=
  ⟨rfl, by omega⟩

/-- Witness for C4 at a concrete fresh cache and a concrete miss. -/
theorem c4_witness :
    load_entries_from_cache
      { cacheExists := true, sourceMtime := 1, cacheMtime := 2,
        content := .pairData [] [] } = some ([], []) ∧
    (load_yomichan_zip_entries
      { cacheExists := false, sourceMtime := 1, cacheMtime := 2,
        content := .corrupt } false
      ([InEntry.compact cmptyEntry], []) "a/b.zip").1 =
      some (([InEntry.compact cmptyEntry], []), basenameOf "a/b.zip") := by
  constructor
  · exact (c4_cache_policy
      { cacheExists := true, sourceMtime := 1, cacheMtime := 2,
        content := .pairData [] [] }).2.2.2.1 rfl (by decide) [] [] rfl
  · exact (c4_cache_policy
      { cacheExists := false, sourceMtime := 1, cacheMtime := 2,
        content := .corrupt }).2.2.2.2.2.1 rfl _ _ false (Or.inl rfl)

/-- C8: whenever the SQLite store exists at the derived
`.pkl`-to-`.db` path, `load_dictionary` delegates to
`load_dictionary_sqlite` on that path and produces no snapshot-open or
snapshot-conversion effect — the snapshot-parse and migration paths are
unreachable. -/
theorem c8_sqlite_preferred (ej : Bool) (env : LoadEnv) (path : String)
    (hdb : env.dbExists = true) :
    load_dictionary ej false env path =
      load_dictionary_sqlite env (pyReplaceS path ".pkl" ".db") ∧
    (∀ eff ∈ (load_dictionary ej false env path).2, ∀ p,
      eff ≠ .openSnapshot p ∧ eff ≠ .convertDb p) ∧
    (∀ isLoaded, ∀ eff ∈ (load_dictionary ej isLoaded env path).2, ∀ p,
      eff ≠ .openSnapshot p) := by
  refine ⟨?_, ?_, ?_⟩
  · simp [load_dictionary, hdb]
  · simp [load_dictionary, hdb, load_dictionary_sqlite]
  · intro il
    cases il <;> simp [load_dictionary, hdb, load_dictionary_sqlite]

/-- Witness for C8 at a concrete environment. -/
theorem c8_witness :
    ({ dbExists := true, sqliteOk := true, snapshotOk := true } : LoadEnv).dbExists
        = true ∧
    load_dictionary true false
        { dbExists := true, sqliteOk := true, snapshotOk := true }
        "dictionary.pkl" =
      load_dictionary_sqlite
        { dbExists := true, sqliteOk := true, snapshotOk := true }
        (pyReplaceS "dictionary.pkl" ".pkl" ".db") :=
  ⟨rfl, (c8_sqlite_preferred true _ "dictionary.pkl" rfl).1⟩

theorem dictAppendIdx_lookup (m : LookupMap) (k0 : JValue) (i : Nat) (k : JValue) :
    lookupPositions (dictAppendIdx m k0 i) k =
      if k = k0 then lookupPositions m k ++ [i] else lookupPositions m k := by
  induction m with
  | nil =>
    by_cases h : k = k0
    · subst h
      simp [dictAppendIdx, lookupPositions, dictGetIdx,
        (JValue.beq_iff_eq k k).2 rfl]
    · have hb : JValue.beq k0 k = false := by
        rw [JValue.beq_eq_decide]
        simp [Ne.symm h]
      simp [dictAppendIdx, lookupPositions, dictGetIdx, hb, h]
  | cons head rest ih =>
    obtain ⟨k1, l1⟩ := head
    by_cases h1 : k1 = k0 <;> by_cases h2 : k1 = k <;>
      simp_all [dictAppendIdx, lookupPositions, dictGetIdx,
        JValue.beq_eq_decide] <;>
      simp_all [Ne.symm h2, eq_comm]

theorem regForms_lookup (ks : List JValue) (m : LookupMap) (i : Nat) (k : JValue) :
    ∃ ext, lookupPositions (regForms m ks i) k = lookupPositions m k ++ ext ∧
      (k ∈ ks → i ∈ ext) := by
  induction ks generalizing m with
  | nil => exact ⟨[], by simp [regForms], by simp⟩
  | cons k0 ks ih =>
    have hr : regForms m (k0 :: ks) i = regForms (dictAppendIdx m k0 i) ks i := rfl
    obtain ⟨ext, hext, hmem⟩ := ih (dictAppendIdx m k0 i)
    by_cases h : k = k0
    · subst h
      refine ⟨[i] ++ ext, ?_, fun _ => by simp⟩
      rw [hr, hext, dictAppendIdx_lookup]
      simp
    · refine ⟨ext, ?_, ?_⟩
      · rw [hr, hext, dictAppendIdx_lookup]
        simp [h]
      · intro hk
        rcases List.mem_cons.1 hk with h0 | h0
        · exact absurd h0 h
        · exact hmem h0

theorem registerAll_lookup :
    ∀ (ces : List CompactEntry) (lk lka : LookupMap) (i : Nat) (k : JValue),
    (∃ ext, lookupPositions (registerAll lk lka i ces).1 k =
      lookupPositions lk k ++ ext) ∧
    (∃ ext, lookupPositions (registerAll lk lka i ces).2 k =
      lookupPositions lka k ++ ext) ∧
    (∀ j e, ces[j]? = some e →
      (k ∈ e.kebs → (i + j) ∈ lookupPositions (registerAll lk lka i ces).1 k) ∧
      (k ∈ e.rebs → (i + j) ∈ lookupPositions (registerAll lk lka i ces).2 k))
  | [], lk, lka, i, k =>
    ⟨⟨[], by simp [registerAll]⟩, ⟨[], by simp [registerAll]⟩,
      by intro j e h; simp at h⟩
  | e0 :: rest, lk, lka, i, k => by
    have hr : registerAll lk lka i (e0 :: rest) =
        registerAll (regForms lk e0.kebs i) (regForms lka e0.rebs i) (i + 1) rest := rfl
    obtain ⟨hk1, hk2, hk3⟩ :=
      registerAll_lookup rest (regForms lk e0.kebs i) (regForms lka e0.rebs i) (i + 1) k
    obtain ⟨extk, hextk, hmemk⟩ := regForms_lookup e0.kebs lk i k
    obtain ⟨exta, hexta, hmema⟩ := regForms_lookup e0.rebs lka i k
    obtain ⟨ext1, hext1⟩ := hk1
    obtain ⟨ext2, hext2⟩ := hk2
    refine ⟨⟨extk ++ ext1, by rw [hr, hext1, hextk, List.append_assoc]⟩,
      ⟨exta ++ ext2, by rw [hr, hext2, hexta, List.append_assoc]⟩, ?_⟩
    intro j e hj
    cases j with
    | zero =>
      simp only [List.getElem?_cons_zero, Option.some.injEq] at hj
      subst hj
      constructor
      · intro hke
        rw [hr, hext1, hextk, Nat.add_zero]
        exact List.mem_append_left _ (List.mem_append_right _ (hmemk hke))
      · intro hre
        rw [hr, hext2, hexta, Nat.add_zero]
        exact List.mem_append_left _ (List.mem_append_right _ (hmema hre))
    | succ j =>
      simp only [List.getElem?_cons_succ] at hj
      have := hk3 j e hj
      rw [show i + (j + 1) = (i + 1) + j from by omega, hr]
      exact this

theorem pairBeq_eq_decide (a b : PairKey) : pairBeq a b = decide (a = b) := by
  obtain ⟨a1, a2⟩ := a
  obtain ⟨b1, b2⟩ := b
  by_cases h1 : a1 = b1 <;> by_cases h2 : a2 = b2 <;>
    simp [pairBeq, JValue.beq_eq_decide, h1, h2]

theorem pairGet_insert (m : PairMap) (k0 : PairKey) (v : JValue) (k : PairKey) :
    pairGet (pairInsert m k0 v) k = if k = k0 then some v else pairGet m k := by
  induction m with
  | nil =>
    by_cases h : k = k0
    · subst h
      simp [pairInsert, pairGet, pairBeq_eq_decide]
    · simp [pairInsert, pairGet, pairBeq_eq_decide, h, Ne.symm h]
  | cons head rest ih =>
    obtain ⟨k1, v1⟩ := head
    by_cases h1 : k1 = k0 <;> by_cases h2 : k1 = k <;>
      simp_all [pairInsert, pairGet, pairBeq_eq_decide] <;>
      simp_all [Ne.symm h2, eq_comm]

theorem pairUpdate_absent :
    ∀ (inc m : PairMap) (k : PairKey), pairGet inc k = none →
      pairGet (pairUpdate m inc) k = pairGet m k
  | [], m, k, _ => rfl
  | (k0, v) :: inc, m, k, h => by
    have hup : pairUpdate m ((k0, v) :: inc) = pairUpdate (pairInsert m k0 v) inc := rfl
    simp only [pairGet, pairBeq_eq_decide] at h
    split at h
    · cases h
    · rename_i hne
      rw [hup, pairUpdate_absent inc (pairInsert m k0 v) k h, pairGet_insert]
      simp only [decide_eq_true_eq] at hne
      rw [if_neg (fun he => hne he.symm)]

/-- C9: `_add_entries` is append-only: the first `n` positions are
unchanged, the batch occupies positions `n, n+1, ...` in input order,
every key's previous position list survives as a prefix in both lookup
maps, the priority map and rule list are untouched, and the frequency
map is unchanged at every key absent from the incoming map. -/
theorem c9_add_entries_frame (d : Dictionary) (es : List InEntry) (fm : PairMap) :
    (add_entries d es fm).entries.take d.entries.length = d.entries ∧
    (add_entries d es fm).entries.drop d.entries.length = es.map toCompact ∧
    (∀ k, ∃ ext, lookupPositions (add_entries d es fm).lookup_kan k =
      lookupPositions d.lookup_kan k ++ ext) ∧
    (∀ k, ∃ ext, lookupPositions (add_entries d es fm).lookup_kana k =
      lookupPositions d.lookup_kana k ++ ext) ∧
    (add_entries d es fm).priority_map = d.priority_map ∧
    (add_entries d es fm).deconjugator_rules = d.deconjugator_rules ∧
    (∀ key, pairGet fm key = none →
      pairGet (add_entries d es fm).frequency_map key =
        pairGet d.frequency_map key) := by
  refine ⟨?_, ?_, ?_, ?_, rfl, rfl, ?_⟩
  · show (d.entries ++ es.map toCompact).take d.entries.length = d.entries
    exact List.take_left d.entries _
  · show (d.entries ++ es.map toCompact).drop d.entries.length = es.map toCompact
    exact List.drop_left d.entries _
  · intro k
    exact (registerAll_lookup (es.map toCompact) d.lookup_kan d.lookup_kana
      d.entries.length k).1
  · intro k
    exact (registerAll_lookup (es.map toCompact) d.lookup_kan d.lookup_kana
      d.entries.length k).2.1
  · intro key hkey
    show pairGet (if fm.isEmpty then d.frequency_map
      else pairUpdate d.frequency_map fm) key = pairGet d.frequency_map key
    split
    · rfl
    · exact pairUpdate_absent fm d.frequency_map key hkey

/-- Witness for C9 with a concrete merge and an absent frequency key. -/
theorem c9_witness :
    pairGet [((JValue.str "a", JValue.str "b"), JValue.num 1)]
        (JValue.str "x", JValue.str "y") = none ∧
    pairGet (add_entries emptyDict [InEntry.compact cmptyEntry]
        [((JValue.str "a", JValue.str "b"), JValue.num 1)]).frequency_map
        (JValue.str "x", JValue.str "y") =
      pairGet emptyDict.frequency_map (JValue.str "x", JValue.str "y") :=
  ⟨by decide,
    (c9_add_entries_frame emptyDict [InEntry.compact cmptyEntry]
      [((JValue.str "a", JValue.str "b"), JValue.num 1)]).2.2.2.2.2.2
      (JValue.str "x", JValue.str "y") (by decide)⟩

theorem dictInv_empty : DictInv emptyDict := by
  intro p e k h
  simp [emptyDict] at h

theorem dictInv_add (d : Dictionary) (es : List InEntry) (fm : PairMap)
    (h : DictInv d) : DictInv (add_entries d es fm) := by
  intro p e k hp
  have he : (add_entries d es fm).entries = d.entries ++ es.map toCompact := rfl
  have hlk : (add_entries d es fm).lookup_kan =
    (registerAll d.lookup_kan d.lookup_kana d.entries.length (es.map toCompact)).1 := rfl
  have hlka : (add_entries d es fm).lookup_kana =
    (registerAll d.lookup_kan d.lookup_kana d.entries.length (es.map toCompact)).2 := rfl
  rw [he] at hp
  rcases Nat.lt_or_ge p d.entries.length with hlt | hge
  · rw [List.getElem?_append_left hlt] at hp
    obtain ⟨hk0, ha0⟩ := h p e k hp
    obtain ⟨⟨ext1, hext1⟩, ⟨ext2, hext2⟩, _⟩ := registerAll_lookup
      (es.map toCompact) d.lookup_kan d.lookup_kana d.entries.length k
    constructor
    · intro hke
      rw [hlk, hext1]
      exact List.mem_append_left _ (hk0 hke)
    · intro hre
      rw [hlka, hext2]
      exact List.mem_append_left _ (ha0 hre)
  · rw [List.getElem?_append_right hge] at hp
    obtain ⟨_, _, h3⟩ := registerAll_lookup
      (es.map toCompact) d.lookup_kan d.lookup_kana d.entries.length k
    have hm := h3 (p - d.entries.length) e hp
    have hparith : d.entries.length + (p - d.entries.length) = p := by omega
    rw [hparith] at hm
    exact ⟨fun hke => by rw [hlk]; exact hm.1 hke,
           fun hre => by rw [hlka]; exact hm.2 hre⟩

/-- One `import_jmdict_json` record either leaves the dictionary
unchanged (skipped record) or appends one entry and registers it at the
final position. -/
theorem processJmRecord_shape (d : Dictionary) (rcd : JValue) (d2 : Dictionary)
    (hp : processJmRecord d rcd = .ok d2) :
    d2 = d ∨ ∃ entry : CompactEntry,
      d2.entries = d.entries ++ [entry] ∧
      d2.lookup_kan = regForms d.lookup_kan entry.kebs d.entries.length ∧
      d2.lookup_kana = regForms d.lookup_kana entry.rebs d.entries.length := by
  unfold processJmRecord at hp
  cases h1 : pyGet rcd "k_ele" (.arr []) with
  | error e1 => rw [h1] at hp; simp at hp
  | ok ke =>
  rw [h1] at hp; simp only [exceptBind_ok] at hp
  cases h2 : pyIter ke with
  | error e2 => rw [h2] at hp; simp at hp
  | ok kl =>
  rw [h2] at hp; simp only [exceptBind_ok] at hp
  cases h3 : kl.mapM (fun k => pySubscrKey k "keb") with
  | error e3 => rw [h3] at hp; simp at hp
  | ok kebs =>
  rw [h3] at hp; simp only [exceptBind_ok] at hp
  cases h4 : pyGet rcd "r_ele" (.arr []) with
  | error e4 => rw [h4] at hp; simp at hp
  | ok re =>
  rw [h4] at hp; simp only [exceptBind_ok] at hp
  cases h5 : pyIter re with
  | error e5 => rw [h5] at hp; simp at hp
  | ok rl =>
  rw [h5] at hp; simp only [exceptBind_ok] at hp
  cases h6 : rl.mapM (fun r => pySubscrKey r "reb") with
  | error e6 => rw [h6] at hp; simp at hp
  | ok rebs =>
  rw [h6] at hp; simp only [exceptBind_ok] at hp
  cases h7 : pyGet rcd "sense" (.arr []) with
  | error e7 => rw [h7] at hp; simp at hp
  | ok se =>
  rw [h7] at hp; simp only [exceptBind_ok] at hp
  cases h8 : pyIter se with
  | error e8 => rw [h8] at hp; simp at hp
  | ok sl =>
  rw [h8] at hp; simp only [exceptBind_ok] at hp
  cases h9 : jmSenses sl (.arr []) with
  | error e9 => rw [h9] at hp; simp at hp
  | ok senses_processed =>
  rw [h9] at hp; simp only [exceptBind_ok] at hp
  split at hp
  · left
    simp only [exceptPure_eq_ok, Except.ok.injEq] at hp
    exact hp.symm
  · cases h10 : pySubscrKey rcd "seq" with
    | error e10 => rw [h10] at hp; simp at hp
    | ok seq =>
      rw [h10] at hp
      simp only [exceptBind_ok, exceptPure_eq_ok, Except.ok.injEq] at hp
      right
      refine ⟨⟨seq, kebs, rebs, .arr senses_processed, ke, re, se⟩, ?_, ?_, ?_⟩
      · rw [← hp]
      · rw [← hp]
        simp
      · rw [← hp]
        simp

theorem dictInv_processJm (d : Dictionary) (rcd : JValue) (d2 : Dictionary)
    (h : DictInv d) (hp : processJmRecord d rcd = .ok d2) : DictInv d2 := by
  rcases processJmRecord_shape d rcd d2 hp with heq | ⟨entry, he, hk, ha⟩
  · rwa [heq]
  · intro p e k hpe
    rw [he] at hpe
    obtain ⟨ext1, hext1, hm1⟩ := regForms_lookup entry.kebs d.lookup_kan
      d.entries.length k
    obtain ⟨ext2, hext2, hm2⟩ := regForms_lookup entry.rebs d.lookup_kana
      d.entries.length k
    rcases Nat.lt_or_ge p d.entries.length with hlt | hge
    · rw [List.getElem?_append_left hlt] at hpe
      obtain ⟨hk0, ha0⟩ := h p e k hpe
      constructor
      · intro hke
        rw [hk, hext1]
        exact List.mem_append_left _ (hk0 hke)
      · intro hre
        rw [ha, hext2]
        exact List.mem_append_left _ (ha0 hre)
    · rw [List.getElem?_append_right hge] at hpe
      have hone : p - d.entries.length = 0 ∧ e = entry := by
        rcases hzero : p - d.entries.length with _ | n
        · rw [hzero] at hpe
          simp at hpe
          exact ⟨rfl, hpe.symm⟩
        · rw [hzero] at hpe
          simp at hpe
      have hpl : p = d.entries.length := by omega
      subst hpl
      rcases hone with ⟨_, hee⟩
      subst hee
      constructor
      · intro hke
        rw [hk, hext1]
        exact List.mem_append_right _ (hm1 hke)
      · intro hre
        rw [ha, hext2]
        exact List.mem_append_right _ (hm2 hre)

theorem dictInv_import : ∀ (records : List JValue) (d : Dictionary), DictInv d →
    DictInv (import_jmdict_json d records).1
  | [], d, h => h
  | rcd :: rest, d, h => by
    show DictInv (import_jmdict_json d (rcd :: rest)).1
    rw [import_jmdict_json]
    cases hp : processJmRecord d rcd with
    | ok d2 => exact dictInv_import rest d2 (dictInv_processJm d rcd d2 h hp)
    | error e => exact h

theorem dictInv_foldl : ∀ (ops : List DictOp) (d : Dictionary), DictInv d →
    DictInv (ops.foldl applyOp d)
  | [], d, h => h
  | op :: ops, d, h => by
    apply dictInv_foldl ops
    cases op with
    | importJm records => exact dictInv_import records d h
    | addEntries es fm => exact dictInv_add d es fm h

/-- C1: after any sequence of bundled-lexicon imports and packaged-
lexicon merges from an empty store, every entry is found by lookup under
each of its written forms in `lookup_kan` (and each of its readings in
`lookup_kana`), at its own position. -/
theorem c1_index_complete (ops : List DictOp) (p : Nat) (e : CompactEntry)
    (k : JValue) (hp : (applyOps ops).entries[p]? = some e) :
    (k ∈ e.kebs → p ∈ lookupPositions (applyOps ops).lookup_kan k) ∧
    (k ∈ e.rebs → p ∈ lookupPositions (applyOps ops).lookup_kana k) :=
  dictInv_foldl ops emptyDict dictInv_empty p e k hp

/-- Witness for C1: importing Scenario A, `lookup_kan` and `lookup_kana`
resolve the new entry at position 0. -/
theorem c1_witness :
    (applyOps [DictOp.importJm [recA]]).entries[0]? = some entryA ∧
    (JValue.str "猫") ∈ entryA.kebs ∧
    0 ∈ lookupPositions (applyOps [DictOp.importJm [recA]]).lookup_kan (.str "猫") ∧
    0 ∈ lookupPositions (applyOps [DictOp.importJm [recA]]).lookup_kana (.str "ねこ") := by
  have h1 : (applyOps [DictOp.importJm [recA]]).entries[0]? = some entryA := by
    decide
  refine ⟨h1, by decide, ?_, ?_⟩
  · exact (c1_index_complete [DictOp.importJm [recA]] 0 entryA (.str "猫") h1).1
      (by decide)
  · exact (c1_index_complete [DictOp.importJm [recA]] 0 entryA (.str "ねこ") h1).2
      (by decide)

theorem find?_enumFrom (l : List CompactEntry) : ∀ (n i : Nat),
    (List.enumFrom n l).find? (fun row => row.1 == n + i) =
      (l[i]?).map (fun e => (n + i, e)) := by
  induction l with
  | nil => intro n i; simp
  | cons e tl ih =>
    intro n i
    rw [List.enumFrom_cons, List.find?_cons]
    cases i with
    | zero => simp
    | succ i =>
      have hne : (n == n + (i + 1)) = false := by
        simp
      rw [hne]
      have harith : (fun (row : Nat × CompactEntry) => row.1 == n + (i + 1)) =
          (fun row => row.1 == (n + 1) + i) := by
        funext row
        have : n + (i + 1) = (n + 1) + i := by omega
        rw [this]
      rw [harith, ih (n + 1) i]
      simp only [List.getElem?_cons_succ]
      have : (n + 1) + i = n + (i + 1) := by omega
      rw [this]

theorem sqliteSelectEntry_spec (d : Dictionary) (i : Nat) :
    sqliteSelectEntry (convert_to_sqlite d) i = d.entries[i]? := by
  show ((List.enumFrom 0 d.entries).find?
    (fun row => row.1 == i)).map (·.2) = d.entries[i]?
  have harith : (fun (row : Nat × CompactEntry) => row.1 == i) =
      (fun row => row.1 == 0 + i) := by
    funext row
    rw [Nat.zero_add]
  rw [harith, find?_enumFrom d.entries 0 i]
  cases d.entries[i]? <;> simp

theorem orderById_sorted : ∀ rows : List (Nat × CompactEntry),
    List.Pairwise (fun a b => a.1 ≤ b.1) rows → orderById rows = rows
  | [], _ => rfl
  | x :: xs, h => by
    obtain ⟨hhead, htail⟩ := List.pairwise_cons.1 h
    show insertById x (orderById xs) = x :: xs
    rw [orderById_sorted xs htail]
    cases xs with
    | nil => rfl
    | cons y ys => simp [insertById, hhead y (List.mem_cons_self y ys)]

theorem enumFrom_pairwise (l : List CompactEntry) : ∀ n : Nat,
    List.Pairwise (fun (a b : Nat × CompactEntry) => a.1 ≤ b.1)
      (List.enumFrom n l) := by
  induction l with
  | nil => intro n; simp
  | cons e tl ih =>
    intro n
    rw [List.enumFrom_cons, List.pairwise_cons]
    refine ⟨?_, ih (n + 1)⟩
    intro y hy
    obtain ⟨j, c⟩ := y
    rw [List.mk_mem_enumFrom_iff_le_and_getElem?_sub] at hy
    exact le_trans (Nat.le_succ n) hy.1

/-- C2: the lazy SQLite backend produced by `convert_to_sqlite` is
observationally equal to the eager in-memory backend through the shared
contract — same length, same entry at every valid position, same
iteration order, and the same `get` result (including the absent-key
default) on both lookup maps. -/
theorem c2_backend_equiv (d : Dictionary) :
    sqliteEntryCount (convert_to_sqlite d) = d.entries.length ∧
    (∀ (i : Nat) (e : CompactEntry), d.entries[i]? = some e →
      sqliteEntryGet (convert_to_sqlite d) (i : Int) = .ok e) ∧
    sqliteEntryIter (convert_to_sqlite d) = d.entries ∧
    (∀ k, sqliteLookupGet (convert_to_sqlite d).lookup_kan_table k =
      dictGetIdx d.lookup_kan k) ∧
    (∀ k, sqliteLookupGet (convert_to_sqlite d).lookup_kana_table k =
      dictGetIdx d.lookup_kana k) := by
  refine ⟨?_, ?_, ?_, ?_, ?_⟩
  · show (List.enum d.entries).length = d.entries.length
    exact List.enum_length
  · intro i e he
    have hlt : i < d.entries.length := by
      by_contra hge
      rw [List.getElem?_eq_none (by omega)] at he
      cases he
    have hcount : sqliteEntryCount (convert_to_sqlite d) = d.entries.length :=
      List.enum_length
    rw [sqliteEntryGet]
    rw [if_neg]
    · rw [show (i : Int).toNat = i from Int.toNat_ofNat i,
        sqliteSelectEntry_spec, he]
    · rw [hcount]
      push_neg
      constructor
      · exact Int.ofNat_nonneg i
      · exact_mod_cast hlt
  · show (orderById (List.enumFrom 0 d.entries)).map (·.2) = d.entries
    rw [orderById_sorted _ (enumFrom_pairwise d.entries 0)]
    exact List.enumFrom_map_snd 0 d.entries
  · intro k
    show sqliteLookupGet d.lookup_kan k = dictGetIdx d.lookup_kan k
    induction d.lookup_kan with
    | nil => rfl
    | cons head rest ih =>
      obtain ⟨k1, l1⟩ := head
      simp [sqliteLookupGet, dictGetIdx, ih]
  · intro k
    show sqliteLookupGet d.lookup_kana k = dictGetIdx d.lookup_kana k
    induction d.lookup_kana with
    | nil => rfl
    | cons head rest ih =>
      obtain ⟨k1, l1⟩ := head
      simp [sqliteLookupGet, dictGetIdx, ih]

/-- Witness for C2 at a concrete one-entry dictionary. -/
theorem c2_witness :
    (add_entries emptyDict [InEntry.compact cmptyEntry] []).entries[0]? =
      some cmptyEntry ∧
    sqliteEntryGet
      (convert_to_sqlite (add_entries emptyDict [InEntry.compact cmptyEntry] []))
      (0 : Int) = .ok cmptyEntry := by
  have h0 : (add_entries emptyDict [InEntry.compact cmptyEntry] []).entries[0]? =
      some cmptyEntry := by decide
  exact ⟨h0,
    (c2_backend_equiv (add_entries emptyDict [InEntry.compact cmptyEntry] [])).2.1
      0 cmptyEntry h0⟩
